import Mathlib

/-!
Verification of the DMS core of the RoadVisionChatbotBackend repository.

The definitions below are a shallow embedding of the Python source:
  * `app/modules/dmsiq/db/repository.py` (class `DmsRepository`)
  * `app/modules/dmsiq/services/dms_service.py` (class `DmsService`)
  * `app/modules/dmsiq/services/remote_file_manager.py` (class `RemoteFileManager`)
  * `app/modules/dmsiq/services/file_storage.py` (class `FileStorageService`)

The SQLAlchemy session is modelled as an in-memory record of lists (`Db`),
queries as `List.find?` / `List.filter` in insertion order, ORM attribute
mutation as a keyed map over the list, UUIDs as `Nat`, timestamps as `Nat`,
and unbounded Python recursion via an explicit fuel parameter (`none` means
the recursion did not complete within the given fuel, for every fuel).
Network and disk I/O of the remote file manager are oracles passed as
function arguments.
-/

namespace DmsIQ

/-! ## Definitions: shallow embedding of the DMS core, plus the concrete
fixtures the claims are evaluated on. -/

/-- Row of table `dms_folders` (`DmsFolder` in `schema.py`); fields the core
operations touch. `documentCount` is an `Int` because the column is a plain
SQL integer and the code guards underflow with `max(0, ...)`. -/
structure DmsFolder where
  id : Nat
  name : String
  parentFolderId : Option Nat
  path : String
  documentCount : Int
  department : Option String
  description : Option String
  confidentialityLevel : String
  isSystemFolder : Bool
  isDeleted : Bool
deriving DecidableEq

/-- Row of table `dms_documents` (`DmsDocument` in `schema.py`). -/
structure DmsDocument where
  id : Nat
  name : String
  originalFilename : String
  mimeType : String
  sizeBytes : Nat
  storagePath : String
  folderId : Option Nat
  folderPath : Option String
  status : String
  confidentialityLevel : String
  tags : List String
  version : Nat
  isDeleted : Bool
deriving DecidableEq

/-- Row of table `dms_document_versions` (`DmsDocumentVersion`). -/
structure DmsDocumentVersion where
  id : Nat
  documentId : Nat
  versionNumber : Nat
  storagePath : String
  sizeBytes : Nat
  uploadedBy : Nat
  changeSummary : Option String
deriving DecidableEq

/-- Row of table `dms_folder_permissions` (`DmsFolderPermission`).
`userId`/`department` are nullable; a SQL equality against NULL never
matches, which the `Option` equality below reproduces. Timestamps are `Nat`. -/
structure DmsFolderPermission where
  id : Nat
  folderId : Nat
  userId : Option Nat
  department : Option String
  permissionLevel : String
  inheritToSubfolders : Bool
  validUntil : Option Nat
deriving DecidableEq

/-- The metadata store: the tables reached by the claims, in insertion
order, plus the id allocator standing for primary-key generation. -/
structure Db where
  folders : List DmsFolder
  documents : List DmsDocument
  versions : List DmsDocumentVersion
  folderPerms : List DmsFolderPermission
  docCategories : List (Nat × Nat)
  nextId : Nat
deriving DecidableEq

/-- Python truthiness of an optional string (`if update_data.name:`):
`None` and the empty string are falsy. -/
def truthyStr : Option String → Option String
  | some s => if s = "" then none else some s
  | none => none

/-- `DmsRepository.get_folder`: first non-deleted folder with the id. -/
def getFolder (db : Db) (folderId : Nat) : Option DmsFolder :=
  db.folders.find? (fun f => f.id == folderId && !f.isDeleted)

/-- `DmsRepository.get_document`: first non-deleted document with the id. -/
def getDocument (db : Db) (documentId : Nat) : Option DmsDocument :=
  db.documents.find? (fun d => d.id == documentId && !d.isDeleted)

/-- ORM attribute mutation on the folder object with the given primary key,
committed back into the table. -/
def setFolderFields (db : Db) (folderId : Nat) (g : DmsFolder → DmsFolder) : Db :=
  { db with folders := db.folders.map (fun f => if f.id == folderId then g f else f) }

/-- Insertion of the new folder row in `DmsRepository.create_folder`, once
the materialized path has been computed. -/
def createFolderRow (db : Db) (name : String) (parentFolderId : Option Nat)
    (department : Option String) (path : String) : Db × DmsFolder :=
  let folder : DmsFolder :=
    { id := db.nextId, name := name, parentFolderId := parentFolderId, path := path
      documentCount := 0, department := department, description := none
      confidentialityLevel := "internal", isSystemFolder := false, isDeleted := false }
  ({ db with folders := db.folders ++ [folder], nextId := db.nextId + 1 }, folder)

/-- `DmsRepository.create_folder`: materialized path from the parent (which
must exist and not be deleted), `document_count` initialized to 0. -/
def createFolder (db : Db) (name : String) (parentFolderId : Option Nat)
    (department : Option String) : Except String (Db × DmsFolder) :=
  match parentFolderId with
  | some pid =>
    match getFolder db pid with
    | none => .error ("Parent folder " ++ toString pid ++ " not found")
    | some parent => .ok (createFolderRow db name parentFolderId department
        (parent.path ++ name ++ "/"))
  | none => .ok (createFolderRow db name parentFolderId department ("/" ++ name ++ "/"))

/-- Payload of `FolderUpdate` (pydantic) as consumed by `update_folder`. -/
structure FolderUpdate where
  name : Option String
  description : Option String
  confidentialityLevel : Option String
deriving DecidableEq

/-- `DmsRepository.update_folder`. A truthy new name regenerates this
folder's own path from the parent's path; nothing else recomputes paths
(the source never calls `_update_subfolder_paths` here). `.ok none` is the
Python `return None` for a missing folder; `.error` is the `AttributeError`
raised when the stored parent id no longer resolves. -/
def updateFolder (db : Db) (folderId : Nat) (upd : FolderUpdate) :
    Except String (Option Db) :=
  match getFolder db folderId with
  | none => .ok none
  | some folder =>
    match (match truthyStr upd.name with
      | some n =>
        match folder.parentFolderId with
        | some pid =>
          match getFolder db pid with
          | some parent => Except.ok { folder with name := n, path := parent.path ++ n ++ "/" }
          | none => Except.error "AttributeError: parent folder row is gone"
        | none => Except.ok { folder with name := n, path := "/" ++ n ++ "/" }
      | none => Except.ok folder) with
    | .error e => .error e
    | .ok f1 =>
      let f2 := match upd.description with
        | some d => { f1 with description := some d }
        | none => f1
      let f3 := match truthyStr upd.confidentialityLevel with
        | some c => { f2 with confidentialityLevel := c }
        | none => f2
      .ok (some (setFolderFields db folderId (fun _ => f3)))

/-- `DmsRepository._update_subfolder_paths`: fetch the current non-deleted
children once, then for each child rewrite its path and recurse.  The fuel
models Python's unbounded recursion: a `none` result for every fuel value
means the source recurses forever on that input. -/
def updateSubfolderPaths : Nat → Db → Nat → String → Option Db
  | 0, _, _, _ => none
  | fuel + 1, db, folderId, newParentPath =>
    (db.folders.filter (fun f => f.parentFolderId == some folderId && !f.isDeleted)).foldlM
      (fun acc sf =>
        updateSubfolderPaths fuel
          (setFolderFields acc sf.id (fun f => { f with path := newParentPath ++ sf.name ++ "/" }))
          sf.id (newParentPath ++ sf.name ++ "/"))
      db

/-- `DmsRepository.move_folder`: recompute the path under the new parent,
reparent, then cascade to descendants.  There is no check that the new
parent lies outside the moved folder's subtree.  Results: `some (.ok none)`
models Python `return None` (folder missing); `some (.error _)` the raised
`ValueError`; `some (.ok (some db))` success; `none` non-termination of the
cascade at this fuel. -/
def moveFolder (fuel : Nat) (db : Db) (folderId : Nat) (newParentId : Option Nat) :
    Option (Except String (Option Db)) :=
  match getFolder db folderId with
  | none => some (.ok none)
  | some folder =>
    match (match newParentId with
      | some pid =>
        match getFolder db pid with
        | none => Except.error ("Parent folder " ++ toString pid ++ " not found")
        | some parent => Except.ok (parent.path ++ folder.name ++ "/")
      | none => Except.ok ("/" ++ folder.name ++ "/")) with
    | .error e => some (.error e)
    | .ok newPath =>
      let db1 := setFolderFields db folderId
        (fun f => { f with parentFolderId := newParentId, path := newPath })
      match updateSubfolderPaths fuel db1 folderId newPath with
      | none => none
      | some db2 => some (.ok (some db2))

/-- Underflow-guarded decrement of a folder's `document_count`:
Python `max(0, (count or 1) - 1)`. -/
def decCount (c : Int) : Int :=
  max 0 ((if c = 0 then 1 else c) - 1)

/-- `DmsRepository.create_document`.  `sp` stands for
`FileStorageService.get_storage_path` (it depends on the wall clock, so it
is passed in as an oracle from document id and original filename).  If a
folder id is given and resolves, its path is denormalized onto the document
and its `document_count` incremented; the document always starts at
`version = 1` and no `DmsDocumentVersion` row is inserted. -/
def createDocument (sp : Nat → String → String) (db : Db) (name originalFilename mimeType : String)
    (sizeBytes : Nat) (folderId : Option Nat) (tags : List String) (status : String) :
    Db × DmsDocument :=
  let folderPath : Option String :=
    match folderId with
    | some fid => (getFolder db fid).map (fun f => f.path)
    | none => none
  let db1 :=
    match folderId with
    | some fid =>
      match getFolder db fid with
      | some _ => setFolderFields db fid (fun f => { f with documentCount := f.documentCount + 1 })
      | none => db
    | none => db
  let docId := db.nextId
  let doc : DmsDocument :=
    { id := docId, name := name, originalFilename := originalFilename, mimeType := mimeType
      sizeBytes := sizeBytes, storagePath := sp docId originalFilename, folderId := folderId
      folderPath := folderPath, status := status, confidentialityLevel := "internal"
      tags := tags, version := 1, isDeleted := false }
  ({ db1 with documents := db1.documents ++ [doc], nextId := db1.nextId + 1 }, doc)

/-- Payload of `DocumentUpdate` (pydantic) as consumed by `update_document`.
A `folderId` of `none` means the field was not sent (Python checks
`is not None`), so a document cannot be moved to the root this way. -/
structure DocumentUpdate where
  name : Option String
  folderId : Option Nat
  tags : Option (List String)
  status : Option String
  confidentialityLevel : Option String
deriving DecidableEq

/-- The `document.folder` ORM relationship: resolved by primary key only,
with no soft-delete filter. -/
def relatedFolder (db : Db) (folderId : Option Nat) : Option DmsFolder :=
  match folderId with
  | some fid => db.folders.find? (fun f => f.id == fid)
  | none => none

/-- The `if update_data.name:` step of `update_document`. -/
def updName (upd : DocumentUpdate) (d : DmsDocument) : DmsDocument :=
  match truthyStr upd.name with
  | some n => { d with name := n }
  | none => d

/-- The `if update_data.tags is not None:` step of `update_document`. -/
def updTags (upd : DocumentUpdate) (d : DmsDocument) : DmsDocument :=
  match upd.tags with
  | some ts => { d with tags := ts }
  | none => d

/-- The `if update_data.status:` step of `update_document`. -/
def updStatus (upd : DocumentUpdate) (d : DmsDocument) : DmsDocument :=
  match truthyStr upd.status with
  | some s => { d with status := s }
  | none => d

/-- The `if update_data.confidentiality_level:` step of `update_document`. -/
def updConf (upd : DocumentUpdate) (d : DmsDocument) : DmsDocument :=
  match truthyStr upd.confidentialityLevel with
  | some c => { d with confidentialityLevel := c }
  | none => d

/-- `DmsRepository.update_document`.  When `folder_id` is sent, the old
folder's counter is decremented (floored at 0) and the new folder's
incremented — the new folder is looked up through `get_folder`, so a
deleted or missing target receives no increment while the document is
still repointed at it.  `none` models Python's `return None`. -/
def updateDocument (db : Db) (documentId : Nat) (upd : DocumentUpdate) : Option Db :=
  match getDocument db documentId with
  | none => none
  | some doc =>
    let doc1 := updName upd doc
    let moved : Db × DmsDocument :=
      match upd.folderId with
      | none => (db, doc1)
      | some nfid =>
        let oldFolder := relatedFolder db doc.folderId
        let newFolder := getFolder db nfid
        let dbA := match oldFolder with
          | some of => setFolderFields db of.id
              (fun f => { f with documentCount := decCount f.documentCount })
          | none => db
        let dbB := match newFolder with
          | some nf => setFolderFields dbA nf.id
              (fun f => { f with documentCount := f.documentCount + 1 })
          | none => dbA
        (dbB, { doc1 with folderId := some nfid, folderPath := newFolder.map (fun f => f.path) })
    let doc5 := updConf upd (updStatus upd (updTags upd moved.2))
    some { moved.1 with
      documents := moved.1.documents.map (fun d => if d.id == documentId then doc5 else d) }

/-- `DmsRepository.delete_document`: soft-delete, then decrement the
related folder's counter (the ORM relationship also reaches deleted
folders).  `none` models Python's `return False`. -/
def deleteDocument (db : Db) (documentId : Nat) : Option Db :=
  match getDocument db documentId with
  | none => none
  | some doc =>
    let db1 := { db with
      documents := db.documents.map
        (fun d => if d.id == documentId then { doc with isDeleted := true } else d) }
    match relatedFolder db doc.folderId with
    | some f =>
      some (setFolderFields db1 f.id (fun g => { g with documentCount := decCount g.documentCount }))
    | none => some db1

/-- The SQL `max(version_number)` over a document's version rows, with the
Python `or 0` default for an empty set. -/
def maxVersionNumber (db : Db) (documentId : Nat) : Nat :=
  (db.versions.filter (fun v => v.documentId == documentId)).foldl
    (fun m v => max m v.versionNumber) 0

/-- Number of `DmsDocumentVersion` rows of a document. -/
def countVersions (db : Db) (documentId : Nat) : Nat :=
  (db.versions.filter (fun v => v.documentId == documentId)).length

/-- The version row `create_document_version` inserts: `version_number` is
`max(existing) + 1`. -/
def nextVersionRow (db : Db) (documentId : Nat) (storagePath : String)
    (sizeBytes uploadedBy : Nat) (changeSummary : Option String) : DmsDocumentVersion :=
  { id := db.nextId, documentId := documentId
    versionNumber := maxVersionNumber db documentId + 1
    storagePath := storagePath, sizeBytes := sizeBytes, uploadedBy := uploadedBy
    changeSummary := changeSummary }

/-- The store after `create_document_version` succeeds: the new row is
appended and the document's `version` field set to the same number. -/
def dbAfterVersion (db : Db) (documentId : Nat) (storagePath : String)
    (sizeBytes uploadedBy : Nat) (changeSummary : Option String) : Db :=
  { db with
    versions := db.versions ++ [nextVersionRow db documentId storagePath sizeBytes uploadedBy
      changeSummary]
    documents := db.documents.map
      (fun d => if d.id == documentId
        then { d with version := maxVersionNumber db documentId + 1 } else d)
    nextId := db.nextId + 1 }

/-- `DmsRepository.create_document_version`: next version number is
`max(existing) + 1`, one immutable row is appended, and the document's
`version` field is set to the same number. -/
def createDocumentVersion (db : Db) (documentId : Nat) (storagePath : String)
    (sizeBytes uploadedBy : Nat) (changeSummary : Option String) :
    Except String (Db × DmsDocumentVersion) :=
  match getDocument db documentId with
  | none => .error ("Document " ++ toString documentId ++ " not found")
  | some _ =>
    .ok (dbAfterVersion db documentId storagePath sizeBytes uploadedBy changeSummary,
      nextVersionRow db documentId storagePath sizeBytes uploadedBy changeSummary)

/-- `DmsRepository._get_required_permissions`: the levels that satisfy a
required level in the read < write < admin order (unknown input: empty). -/
def requiredPermissions (requiredLevel : String) : List String :=
  if requiredLevel = "read" then ["read", "write", "admin"]
  else if requiredLevel = "write" then ["write", "admin"]
  else if requiredLevel = "admin" then ["admin"]
  else []

/-- `DmsRepository._is_permission_valid`: valid iff `valid_until` is unset
or still in the future. -/
def isPermissionValid (p : DmsFolderPermission) (now : Nat) : Bool :=
  match p.validUntil with
  | none => true
  | some t => decide (now < t)

/-- The direct user-grant query of `check_folder_permission`: first row
granted to this user at a sufficient level, accepted only if unexpired. -/
def userCheck (db : Db) (now folderId userId : Nat) (requiredLevel : String) : Bool :=
  match db.folderPerms.find? (fun p => p.folderId == folderId && p.userId == some userId
      && (requiredPermissions requiredLevel).contains p.permissionLevel) with
  | some p => isPermissionValid p now
  | none => false

/-- The department-grant query of `check_folder_permission` (only run when
the caller supplied a department). -/
def deptCheck (db : Db) (now folderId : Nat) (userDept : Option String)
    (requiredLevel : String) : Bool :=
  match userDept with
  | none => false
  | some dept =>
    match db.folderPerms.find? (fun p => p.folderId == folderId && p.department == some dept
        && (requiredPermissions requiredLevel).contains p.permissionLevel) with
    | some p => isPermissionValid p now
    | none => false

/-- `DmsRepository.check_folder_permission`: direct user grant, then
department grant, then — if this folder's parent carries any permission row
with `inherit_to_subfolders` — the full check recursed on the parent.  The
fuel bounds the Python recursion depth. -/
def checkFolderPermission (db : Db) (now : Nat) :
    Nat → Nat → Nat → Option String → String → Bool
  | 0, _, _, _, _ => false
  | fuel + 1, folderId, userId, userDept, requiredLevel =>
    if userCheck db now folderId userId requiredLevel then true
    else if deptCheck db now folderId userDept requiredLevel then true
    else
      match getFolder db folderId with
      | none => false
      | some folder =>
        match folder.parentFolderId with
        | none => false
        | some parentId =>
          match db.folderPerms.find? (fun p => p.folderId == parentId && p.inheritToSubfolders) with
          | none => false
          | some _ => checkFolderPermission db now fuel parentId userId userDept requiredLevel

/-- Row of `scraped_tender_files` as used by `RemoteFileManager`
(`ScrapedTenderFile` in the scraper schema, with the DMS caching columns
added by migration `9c5d1b8e4a2f`). -/
structure ScrapedTenderFile where
  id : Nat
  tenderId : Nat
  fileName : String
  fileSize : Nat
  fileUrl : Option String
  dmsPath : Option String
  isCached : Bool
  cacheStatus : String
  cacheError : Option String
deriving DecidableEq

/-- Python truthiness of a nullable string column
(`if file_record.file_url:`). -/
def truthyOpt : Option String → Bool
  | some s => !(s == "")
  | none => false

/-- ORM mutation plus `commit` of one `ScrapedTenderFile` row. -/
def commitRecord (files : List ScrapedTenderFile) (r : ScrapedTenderFile) :
    List ScrapedTenderFile :=
  files.map (fun x => if x.id == r.id then r else x)

/-- The slice of `get_file`'s metadata dict that the spec talks about:
`source` on success, `error` on the failure dictionaries. -/
structure FileMetadata where
  source : Option String
  error : Option String
deriving DecidableEq

/-- Result of `RemoteFileManager.get_file`, plus `fetches`: the number of
`requests.get` network calls the execution performed. -/
structure GetFileOutcome where
  success : Bool
  content : Option (List Nat)
  meta : FileMetadata
  fetches : Nat
deriving DecidableEq

/-- The local-cache branch of `get_file`: attempted only when `is_cached`
is set and `dms_path` is truthy; `some bytes` means the local read
succeeded. -/
def localRead (readFs : String → Option (List Nat)) (r : ScrapedTenderFile) :
    Option (List Nat) :=
  match r.dmsPath with
  | some p => if r.isCached && !(p == "") then readFs p else none
  | none => none

/-- `RemoteFileManager.get_file`.  `net` is the HTTP client
(`requests.get` + `raise_for_status`: bytes on a 2xx response, the raised
`RequestException` message otherwise); `readFs` is
`FileStorageService.read_file` (`some bytes` on success, `none` when the
file is missing or unreadable).  The method performs no database writes, so
the table is returned untouched on every path. -/
def getFile (net : String → Except String (List Nat)) (readFs : String → Option (List Nat))
    (files : List ScrapedTenderFile) (fileId : Nat) :
    GetFileOutcome × List ScrapedTenderFile :=
  match files.find? (fun r => r.id == fileId) with
  | none =>
    ({ success := false, content := none
       meta := { source := none, error := some "File not found in database" }, fetches := 0 },
     files)
  | some r =>
    match localRead readFs r with
    | some content =>
      ({ success := true, content := some content
         meta := { source := some "local_cache", error := none }, fetches := 0 }, files)
    | none =>
      match r.fileUrl with
      | none =>
        ({ success := false, content := none
           meta := { source := none, error := some "No file URL or cached copy available" }
           fetches := 0 }, files)
      | some u =>
        if u == "" then
          ({ success := false, content := none
             meta := { source := none, error := some "No file URL or cached copy available" }
             fetches := 0 }, files)
        else
          match net u with
          | .ok bytes =>
            ({ success := true, content := some bytes
               meta := { source := some "remote", error := none }, fetches := 1 }, files)
          | .error e =>
            ({ success := false, content := none
               meta := { source := none, error := some ("Failed to fetch remote file: " ++ e) }
               fetches := 1 }, files)

/-- Result of `cache_file_sync` / `cache_file_async`, plus the number of
network fetches performed. -/
structure CacheOutcome where
  ok : Bool
  message : String
  fetches : Nat
deriving DecidableEq

/-- `FileStorageService.save_file`: the `(success, full_path_or_error)`
pair, with `diskWrite` standing for the filesystem (full path on success,
exception text on failure — the source prefixes it with
`"Error saving file: "`). -/
def saveFile (diskWrite : List Nat → String → Except String String)
    (content : List Nat) (p : String) : Bool × String :=
  match diskWrite content p with
  | .ok fullPath => (true, fullPath)
  | .error e => (false, "Error saving file: " ++ e)

/-- `RemoteFileManager.cache_file_sync`: download, write to the DMS path,
and commit the resulting cache state.  A missing URL or a missing DMS path
raises inside the `try` and lands in the failure handlers, like any network
or disk error; `is_cached` is only ever written on the success path. -/
def cacheFileSync (net : String → Except String (List Nat))
    (diskWrite : List Nat → String → Except String String)
    (files : List ScrapedTenderFile) (r : ScrapedTenderFile) :
    CacheOutcome × List ScrapedTenderFile :=
  match r.fileUrl with
  | none =>
    let r' := { r with cacheStatus := "failed", cacheError := some "Download failed: Invalid URL" }
    ({ ok := false, message := "Failed to download file: Invalid URL", fetches := 0 },
     commitRecord files r')
  | some u =>
    match net u with
    | .error e =>
      let r' := { r with cacheStatus := "failed", cacheError := some ("Download failed: " ++ e) }
      ({ ok := false, message := "Failed to download file: " ++ e, fetches := 1 },
       commitRecord files r')
    | .ok content =>
      match r.dmsPath with
      | none =>
        let r' := { r with cacheStatus := "failed"
                           cacheError := some "Unexpected error: unsupported path operand" }
        ({ ok := false, message := "Unexpected error: unsupported path operand", fetches := 1 },
         commitRecord files r')
      | some p =>
        match saveFile diskWrite content p with
        | (false, err) =>
          let r' := { r with cacheStatus := "failed", cacheError := some err }
          ({ ok := false, message := "Failed to save file: " ++ err, fetches := 1 },
           commitRecord files r')
        | (true, fullPath) =>
          let r' := { r with isCached := true, cacheStatus := "cached", cacheError := none }
          ({ ok := true, message := "File cached successfully: " ++ fullPath, fetches := 1 },
           commitRecord files r')

/-- `RemoteFileManager.cache_file_async`: look the record up, short-circuit
when it is already cached or has no URL, else delegate to
`cache_file_sync`. -/
def cacheFileAsync (net : String → Except String (List Nat))
    (diskWrite : List Nat → String → Except String String)
    (files : List ScrapedTenderFile) (fileId : Nat) :
    CacheOutcome × List ScrapedTenderFile :=
  match files.find? (fun r => r.id == fileId) with
  | none => ({ ok := false, message := "File not found", fetches := 0 }, files)
  | some r =>
    if r.isCached then
      ({ ok := true, message := "File already cached", fetches := 0 }, files)
    else if !truthyOpt r.fileUrl then
      ({ ok := false, message := "No remote URL to cache from", fetches := 0 }, files)
    else
      cacheFileSync net diskWrite files r

/-- Case-insensitive containment, modelling SQL `ilike '%s%'`. -/
def ilikeContains (hay needle : String) : Bool :=
  decide (List.IsInfix needle.toLower.toList hay.toLower.toList)

/-- `DmsRepository.list_documents`: non-deleted documents run through the
optional filters, counted before pagination, then paginated with
`offset`/`limit`. -/
def listDocumentsRepo (db : Db) (folderId : Option Nat) (categoryId : Option Nat)
    (search : Option String) (tags : Option (List String)) (status : Option String)
    (limit offset : Int) : List DmsDocument × Nat :=
  let q0 : List DmsDocument := db.documents.filter (fun d => !d.isDeleted)
  let q1 : List DmsDocument := match folderId with
    | some fid => q0.filter (fun d => d.folderId == some fid)
    | none => q0
  let q2 : List DmsDocument := match categoryId with
    | some cid => q1.filter (fun d => db.docCategories.contains (d.id, cid))
    | none => q1
  let q3 : List DmsDocument := match truthyStr search with
    | some s => q2.filter (fun d => ilikeContains d.name s || ilikeContains d.originalFilename s)
    | none => q2
  let q4 : List DmsDocument := match tags with
    | some ts => if ts.isEmpty then q3 else q3.filter (fun d => ts.all (fun t => d.tags.contains t))
    | none => q3
  let q5 : List DmsDocument := match truthyStr status with
    | some s => q4.filter (fun d => d.status == s)
    | none => q4
  ((q5.drop offset.toNat).take limit.toNat, q5.length)

/-- The document-list payload returned by `DmsService.list_documents`
(`DocumentListResponse`): the page, the pre-pagination total, and the
echoed `limit`/`offset`. -/
structure DocumentListResponse where
  documents : List DmsDocument
  total : Nat
  limit : Int
  offset : Int
deriving DecidableEq

/-- `DmsService.list_documents`: clamp `limit` to at most 500 and `offset`
to at least 0, delegate to the repository, and echo the clamped values in
the response. -/
def listDocumentsService (db : Db) (folderId : Option Nat) (categoryId : Option Nat)
    (search : Option String) (tags : Option (List String)) (status : Option String)
    (limit offset : Int) : DocumentListResponse :=
  let limit1 := if limit > 500 then 500 else limit
  let offset1 := if offset < 0 then 0 else offset
  let r := listDocumentsRepo db folderId categoryId search tags status limit1 offset1
  { documents := r.1, total := r.2, limit := limit1, offset := offset1 }

/-- Concrete record used to exercise C7: an already-cached reference. -/
def c7File : ScrapedTenderFile :=
  { id := 1, tenderId := 4, fileName := "f.pdf", fileSize := 3
    fileUrl := some "http://x/f.pdf", dmsPath := some "/tenders/2025/01/02/4/files/f.pdf"
    isCached := true, cacheStatus := "cached", cacheError := none }

/-- Concrete record used to exercise C8: an uncached reference. -/
def c8File : ScrapedTenderFile :=
  { id := 2, tenderId := 4, fileName := "g.pdf", fileSize := 9
    fileUrl := some "http://x/g.pdf", dmsPath := some "/tenders/2025/01/02/4/files/g.pdf"
    isCached := false, cacheStatus := "pending", cacheError := none }

/-- Concrete records used to exercise C9. -/
def c9CachedFile : ScrapedTenderFile :=
  { id := 3, tenderId := 4, fileName := "h.pdf", fileSize := 2
    fileUrl := some "http://x/h.pdf", dmsPath := some "/tenders/h.pdf"
    isCached := true, cacheStatus := "cached", cacheError := none }

/-- Concrete uncached, URL-less record used to exercise C9. -/
def c9BareFile : ScrapedTenderFile :=
  { id := 3, tenderId := 4, fileName := "h.pdf", fileSize := 2
    fileUrl := none, dmsPath := none
    isCached := false, cacheStatus := "pending", cacheError := none }

/-- A fresh metadata store. -/
def emptyDb : Db :=
  { folders := [], documents := [], versions := [], folderPerms := [], docCategories := []
    nextId := 0 }

/-- A non-deleted folder row with the given id, name, parent and path. -/
def mkFolder (i : Nat) (nm : String) (par : Option Nat) (p : String) : DmsFolder :=
  { id := i, name := nm, parentFolderId := par, path := p, documentCount := 0
    department := none, description := none, confidentialityLevel := "internal"
    isSystemFolder := false, isDeleted := false }

/-- The stored path of the folder row with the given id. -/
def pathOf (db : Db) (fid : Nat) : Option String :=
  (db.folders.find? (fun f => f.id == fid)).map (fun f => f.path)

/-- Fixture for C3: root folder A with one child B. -/
def c3Db : Db :=
  { emptyDb with
    folders := [mkFolder 0 "A" none "/A/", mkFolder 1 "B" (some 0) "/A/B/"],
    nextId := 2 }

/-- Outcome of renaming A to A2 through `update_folder`. -/
def c3Result : Option Db :=
  match updateFolder c3Db 0
      { name := some "A2", description := none, confidentialityLevel := none } with
  | .ok r => r
  | .error _ => none

/-- Fixture for C2: root folder A with one child B, before the move. -/
def c2Db : Db :=
  { emptyDb with
    folders := [mkFolder 0 "A" none "/A/", mkFolder 1 "B" (some 0) "/A/B/"],
    nextId := 2 }

/-- The corrupted store `move_folder(A, new_parent=B)` produces before its
cascade: A reparented under its own child B, so the child relation has the
cycle A -> B -> A (paths are parameters because the cascade keeps
rewriting them). -/
def c2CycleDb (pA pB : String) : Db :=
  { emptyDb with
    folders := [mkFolder 0 "A" (some 1) pA, mkFolder 1 "B" (some 0) pB],
    nextId := 2 }

/-- Oracle for `FileStorageService.get_storage_path` in the C4 scenario. -/
def c4Sp : Nat → String → String :=
  fun i fn => "documents/2025/10/" ++ toString i ++ "-" ++ fn

/-- C4 scenario, step 1: create the root folder `/Legal/`. -/
def c4Db1 : Db :=
  match createFolder emptyDb "Legal" none none with
  | .ok (d, _) => d
  | .error _ => emptyDb

/-- C4 scenario, step 2: create document D (id 1) in `/Legal/` with status
`pending`. -/
def c4Db2 : Db :=
  (createDocument c4Sp c4Db1 "D" "d.pdf" "application/pdf" 10 (some 0) [] "pending").1

/-- C4 scenario, step 3: one `create_document_version` call on D. -/
def c4Db3 : Db :=
  match createDocumentVersion c4Db2 1 "documents/2025/10/1-d.pdf" 11 99 none with
  | .ok (d, _) => d
  | .error _ => c4Db2

/-- Concrete document with one existing version row, to exercise C5. -/
def c5Doc : DmsDocument :=
  { id := 5, name := "spec", originalFilename := "spec.pdf", mimeType := "application/pdf"
    sizeBytes := 4, storagePath := "documents/2025/10/5-spec.pdf", folderId := none
    folderPath := none, status := "active", confidentialityLevel := "internal", tags := []
    version := 3, isDeleted := false }

/-- Store holding `c5Doc` and one version row numbered 3. -/
def c5Db : Db :=
  { emptyDb with
    documents := [c5Doc]
    versions := [{ id := 6, documentId := 5, versionNumber := 3
                   storagePath := "documents/2025/10/5-spec.pdf", sizeBytes := 4, uploadedBy := 9
                   changeSummary := none }]
    nextId := 7 }

/-- A non-deleted document stored directly in the folder with id `fid`. -/
def docMatches (fid : Nat) (d : DmsDocument) : Bool :=
  d.folderId == some fid && !d.isDeleted

/-- Number of non-deleted documents whose `folder_id` is `fid`. -/
def docsInFolder (db : Db) (fid : Nat) : Nat :=
  db.documents.countP (docMatches fid)

/-- The denormalized-counter invariant of the spec: every (observable, i.e.
non-deleted) folder's `document_count` equals its number of non-deleted
direct documents. -/
def countsOk (db : Db) : Prop :=
  ∀ f ∈ db.folders, f.isDeleted = false → f.documentCount = (docsInFolder db f.id : Int)

/-- No folder counter (deleted folders included) is ever negative. -/
def countsNonneg (db : Db) : Prop :=
  ∀ f ∈ db.folders, 0 ≤ f.documentCount

/-- Primary-key sanity of the store: folder ids and document ids are
unique, and document ids stay below the id allocator. -/
def WfDb (db : Db) : Prop :=
  (db.folders.map DmsFolder.id).Nodup ∧ (db.documents.map DmsDocument.id).Nodup
    ∧ ∀ d ∈ db.documents, d.id < db.nextId

/-- The document mutations of claim C6, as invoked through the repository. -/
inductive DocOp where
  | create (name originalFilename mimeType : String) (sizeBytes : Nat) (folderId : Option Nat)
      (tags : List String) (status : String)
  | update (documentId : Nat) (upd : DocumentUpdate)
  | delete (documentId : Nat)
deriving DecidableEq

/-- Run one repository call; a not-found result leaves the store as it
was. -/
def applyDocOp (sp : Nat → String → String) (db : Db) : DocOp → Db
  | .create n ofn mt sz fid tg st => (createDocument sp db n ofn mt sz fid tg st).1
  | .update did u => (updateDocument db did u).getD db
  | .delete did => (deleteDocument db did).getD db

/-- Run a sequence of document operations. -/
def applyDocOps (sp : Nat → String → String) (db : Db) (ops : List DocOp) : Db :=
  ops.foldl (applyDocOp sp) db

/-- Store with one empty folder, to exercise C6. -/
def c6Db : Db :=
  { emptyDb with folders := [mkFolder 0 "F" none "/F/"], nextId := 1 }

/-- A create / move / delete sequence on that store. -/
def c6Ops : List DocOp :=
  [DocOp.create "d" "d.pdf" "application/pdf" 4 (some 0) [] "pending",
   DocOp.update 1 { name := none, folderId := some 0, tags := none, status := none
                    confidentialityLevel := none },
   DocOp.delete 1]

/-- The unrestricted counter invariant, quantified over EVERY folder row —
soft-deleted folders included: each folder's `document_count` equals its
number of non-deleted direct documents. -/
def countsOkAll (db : Db) : Prop :=
  ∀ f ∈ db.folders, f.documentCount = (docsInFolder db f.id : Int)

/-- Store for the C6 counterexample: a live folder F (id 0) holding one
live document (id 2), and a soft-deleted folder G (id 1) with counter 0;
every folder row, deleted or not, starts with a correct counter. -/
def c6BadDb : Db :=
  { emptyDb with
    folders := [{ mkFolder 0 "F" none "/F/" with documentCount := 1 },
      { mkFolder 1 "G" none "/G/" with isDeleted := true }]
    documents := [{ id := 2, name := "d", originalFilename := "d.pdf"
                    mimeType := "application/pdf", sizeBytes := 4
                    storagePath := "documents/p", folderId := some 0
                    folderPath := some "/F/", status := "active"
                    confidentialityLevel := "internal", tags := [], version := 1
                    isDeleted := false }]
    nextId := 3 }

/-- The single move of the C6 counterexample: `update_document` repointing
document 2 at the soft-deleted folder G. -/
def c6BadOps : List DocOp :=
  [DocOp.update 2 { name := none, folderId := some 1, tags := none, status := none
                    confidentialityLevel := none }]

/-! ## Theorems. -/

theorem append_ne_empty_of_left_pos (s t : String) (hs : 0 < s.length) : s ++ t ≠ "" := by
  intro h
  have hl := congrArg String.length h
  rw [String.length_append] at hl
  simp only [String.length_empty] at hl
  omega

/-- C10: `DmsService.list_documents` clamps the requested `limit` to at
most 500 (values above 500 are replaced by 500) and the requested `offset`
to at least 0 (negative values are replaced by 0); the returned response
echoes the clamped values, and its page and total come from the repository
query run with exactly those clamped values. -/
theorem c10_list_documents_clamps (db : Db) (folderId categoryId : Option Nat)
    (search : Option String) (tags : Option (List String)) (status : Option String)
    (limit offset : Int) :
    let resp := listDocumentsService db folderId categoryId search tags status limit offset
    resp.limit = (if limit > 500 then 500 else limit)
    ∧ resp.offset = (if offset < 0 then 0 else offset)
    ∧ resp.limit ≤ 500
    ∧ 0 ≤ resp.offset
    ∧ (resp.documents, resp.total) = listDocumentsRepo db folderId categoryId search tags status
        (if limit > 500 then 500 else limit) (if offset < 0 then 0 else offset) := by
  refine ⟨rfl, rfl, ?_, ?_, rfl⟩
  · show (if limit > 500 then 500 else limit) ≤ 500
    split <;> omega
  · show (0 : Int) ≤ (if offset < 0 then 0 else offset)
    split <;> omega

/-- C7: `cache_file_async` on a reference that is already cached performs
no network fetch, reports success with the "File already cached" message,
and leaves the whole table — in particular the reference's `is_cached`,
`cache_status` and `cache_error` fields — exactly as it was. -/
theorem c7_cache_file_idempotent (net : String → Except String (List Nat))
    (diskWrite : List Nat → String → Except String String)
    (files : List ScrapedTenderFile) (fileId : Nat) (r : ScrapedTenderFile)
    (hfind : files.find? (fun x => x.id == fileId) = some r)
    (hc : r.isCached = true) :
    cacheFileAsync net diskWrite files fileId =
      ({ ok := true, message := "File already cached", fetches := 0 }, files) := by
  unfold cacheFileAsync
  rw [hfind]
  simp [hc]

/-- Witness for C7 at a concrete cached reference and oracles. -/
theorem c7_cache_file_idempotent_witness :
    cacheFileAsync (fun _ => .error "offline") (fun _ _ => .error "disk full") [c7File] 1 =
      ({ ok := true, message := "File already cached", fetches := 0 }, [c7File]) :=
  c7_cache_file_idempotent (fun _ => .error "offline") (fun _ _ => .error "disk full")
    [c7File] 1 c7File (by decide) (by decide)

/-- C8: on an uncached reference, `cache_file_sync` records failure —
`cache_status = "failed"`, a non-empty `cache_error`, `is_cached` still
false — whenever the network fetch fails or the disk write fails, and on
success sets `is_cached = true`, `cache_status = "cached"` and clears
`cache_error`. -/
theorem c8_cache_file_failure_success (net : String → Except String (List Nat))
    (diskWrite : List Nat → String → Except String String)
    (files : List ScrapedTenderFile) (r : ScrapedTenderFile) (u p : String)
    (hc : r.isCached = false) (hu : r.fileUrl = some u) (hp : r.dmsPath = some p) :
    (∀ e, net u = .error e →
      ∃ r', cacheFileSync net diskWrite files r =
          ({ ok := false, message := "Failed to download file: " ++ e, fetches := 1 },
           commitRecord files r')
        ∧ r'.isCached = false ∧ r'.cacheStatus = "failed"
        ∧ ∃ m, r'.cacheError = some m ∧ m ≠ "")
    ∧ (∀ content e, net u = .ok content → diskWrite content p = .error e →
      ∃ r', cacheFileSync net diskWrite files r =
          ({ ok := false, message := "Failed to save file: " ++ ("Error saving file: " ++ e)
             fetches := 1 }, commitRecord files r')
        ∧ r'.isCached = false ∧ r'.cacheStatus = "failed"
        ∧ ∃ m, r'.cacheError = some m ∧ m ≠ "")
    ∧ (∀ content fullPath, net u = .ok content → diskWrite content p = .ok fullPath →
      cacheFileSync net diskWrite files r =
        ({ ok := true, message := "File cached successfully: " ++ fullPath, fetches := 1 },
         commitRecord files
           { r with isCached := true, cacheStatus := "cached", cacheError := none })) := by
  refine ⟨?_, ?_, ?_⟩
  · intro e hnet
    refine ⟨{ r with cacheStatus := "failed", cacheError := some ("Download failed: " ++ e) },
      ?_, by simpa using hc, rfl, "Download failed: " ++ e, rfl,
      append_ne_empty_of_left_pos _ _ (by decide)⟩
    simp only [cacheFileSync, hu, hnet]
  · intro content e hnet hdisk
    refine ⟨{ r with cacheStatus := "failed", cacheError := some ("Error saving file: " ++ e) },
      ?_, by simpa using hc, rfl, "Error saving file: " ++ e, rfl,
      append_ne_empty_of_left_pos _ _ (by decide)⟩
    simp only [cacheFileSync, saveFile, hu, hnet, hp, hdisk]
  · intro content fullPath hnet hdisk
    simp only [cacheFileSync, saveFile, hu, hnet, hp, hdisk]

/-- Witness for C8: a network failure (HTTP 500), a disk failure, and a
success, each at concrete oracles. -/
theorem c8_cache_file_failure_success_witness :
    (∃ r', cacheFileSync (fun _ => .error "500 Server Error") (fun _ _ => .ok "/dms/g.pdf")
          [c8File] c8File =
        ({ ok := false, message := "Failed to download file: " ++ "500 Server Error", fetches := 1 },
         commitRecord [c8File] r')
      ∧ r'.isCached = false ∧ r'.cacheStatus = "failed"
      ∧ ∃ m, r'.cacheError = some m ∧ m ≠ "")
    ∧ (∃ r', cacheFileSync (fun _ => .ok [1, 2]) (fun _ _ => .error "No space left on device")
          [c8File] c8File =
        ({ ok := false
           message := "Failed to save file: " ++ ("Error saving file: " ++ "No space left on device")
           fetches := 1 }, commitRecord [c8File] r')
      ∧ r'.isCached = false ∧ r'.cacheStatus = "failed"
      ∧ ∃ m, r'.cacheError = some m ∧ m ≠ "")
    ∧ cacheFileSync (fun _ => .ok [1, 2]) (fun _ _ => .ok "/dms/g.pdf") [c8File] c8File =
        ({ ok := true, message := "File cached successfully: " ++ "/dms/g.pdf", fetches := 1 },
         commitRecord [c8File]
           { c8File with isCached := true, cacheStatus := "cached", cacheError := none }) := by
  refine ⟨?_, ?_, ?_⟩
  · exact (c8_cache_file_failure_success (fun _ => .error "500 Server Error")
      (fun _ _ => .ok "/dms/g.pdf") [c8File] c8File "http://x/g.pdf"
      "/tenders/2025/01/02/4/files/g.pdf" rfl rfl rfl).1 "500 Server Error" rfl
  · exact (c8_cache_file_failure_success (fun _ => .ok [1, 2])
      (fun _ _ => .error "No space left on device") [c8File] c8File "http://x/g.pdf"
      "/tenders/2025/01/02/4/files/g.pdf" rfl rfl rfl).2.1 [1, 2] "No space left on device" rfl rfl
  · exact (c8_cache_file_failure_success (fun _ => .ok [1, 2]) (fun _ _ => .ok "/dms/g.pdf")
      [c8File] c8File "http://x/g.pdf" "/tenders/2025/01/02/4/files/g.pdf"
      rfl rfl rfl).2.2 [1, 2] "/dms/g.pdf" rfl rfl

/-- C9: `get_file` returns the local bytes with `source = "local_cache"`
when the reference is cached and the local read succeeds; otherwise, when a
URL is present, it returns the remotely fetched bytes with
`source = "remote"` while leaving the table (hence `is_cached`,
`cache_status`, `cache_error`) untouched; and with neither a cached local
copy nor a URL it fails with the no-source error instead of content. -/
theorem c9_get_file_sources (net : String → Except String (List Nat))
    (readFs : String → Option (List Nat)) (files : List ScrapedTenderFile) (fileId : Nat)
    (r : ScrapedTenderFile) (hfind : files.find? (fun x => x.id == fileId) = some r) :
    (∀ content, localRead readFs r = some content →
      getFile net readFs files fileId =
        ({ success := true, content := some content
           meta := { source := some "local_cache", error := none }, fetches := 0 }, files))
    ∧ (∀ u bytes, localRead readFs r = none → r.fileUrl = some u → (u == "") = false →
      net u = .ok bytes →
      getFile net readFs files fileId =
        ({ success := true, content := some bytes
           meta := { source := some "remote", error := none }, fetches := 1 }, files))
    ∧ (localRead readFs r = none → truthyOpt r.fileUrl = false →
      getFile net readFs files fileId =
        ({ success := false, content := none
           meta := { source := none, error := some "No file URL or cached copy available" }
           fetches := 0 }, files)) := by
  refine ⟨?_, ?_, ?_⟩
  · intro content hloc
    simp only [getFile, hfind, hloc]
  · intro u bytes hloc hu hne hnet
    simp only [getFile, hfind, hloc, hu, hne, hnet]
    simp
  · intro hloc hurl
    cases hu : r.fileUrl with
    | none => simp only [getFile, hfind, hloc, hu]
    | some u =>
      rw [hu] at hurl
      simp only [truthyOpt] at hurl
      have hue : u = "" := by simpa using hurl
      simp only [getFile, hfind, hloc, hu, hue]
      simp

/-- Witness for C9: the local-cache hit, the remote fallback and the
no-source failure, each at concrete oracles. -/
theorem c9_get_file_sources_witness :
    getFile (fun _ => .error "offline") (fun _ => some [7]) [c9CachedFile] 3 =
      ({ success := true, content := some [7]
         meta := { source := some "local_cache", error := none }, fetches := 0 }, [c9CachedFile])
    ∧ getFile (fun _ => .ok [8]) (fun _ => none) [c9CachedFile] 3 =
      ({ success := true, content := some [8]
         meta := { source := some "remote", error := none }, fetches := 1 }, [c9CachedFile])
    ∧ getFile (fun _ => .ok [8]) (fun _ => some [7]) [c9BareFile] 3 =
      ({ success := false, content := none
         meta := { source := none, error := some "No file URL or cached copy available" }
         fetches := 0 }, [c9BareFile]) := by
  refine ⟨?_, ?_, ?_⟩
  · exact (c9_get_file_sources (fun _ => .error "offline") (fun _ => some [7]) [c9CachedFile] 3
      c9CachedFile (by decide)).1 [7] rfl
  · exact (c9_get_file_sources (fun _ => .ok [8]) (fun _ => none) [c9CachedFile] 3
      c9CachedFile (by decide)).2.1 "http://x/h.pdf" [8] rfl rfl (by decide) rfl
  · exact (c9_get_file_sources (fun _ => .ok [8]) (fun _ => some [7]) [c9BareFile] 3
      c9BareFile (by decide)).2.2 rfl rfl

/-- C3 (code bug): `update_folder` renames folder A to A2 and recomputes
A's own path, but never calls `_update_subfolder_paths`, so descendant B
keeps the stale path `/A/B/` instead of the `/A2/B/` required by the
materialized-path invariant the claim states. -/
theorem c3_rename_does_not_cascade :
    (c3Result.map (fun d => (pathOf d 0, pathOf d 1)))
        = some (some "/A2/", some "/A/B/")
    ∧ (some "/A/B/" : Option String) ≠ some "/A2/B/" := by decide

theorem c2_cycle_no_fuel (fuel : Nat) : ∀ pA pB q,
    updateSubfolderPaths fuel (c2CycleDb pA pB) 0 q = none
    ∧ updateSubfolderPaths fuel (c2CycleDb pA pB) 1 q = none := by
  induction fuel with
  | zero => exact fun _ _ _ => ⟨rfl, rfl⟩
  | succ n ih =>
    intro pA pB q
    constructor
    · show (updateSubfolderPaths n (c2CycleDb pA (q ++ "B" ++ "/")) 1 (q ++ "B" ++ "/")).bind
          (fun b => Option.some b) = none
      rw [(ih pA (q ++ "B" ++ "/") (q ++ "B" ++ "/")).2]
      rfl
    · show (updateSubfolderPaths n (c2CycleDb (q ++ "A" ++ "/") pB) 0 (q ++ "A" ++ "/")).bind
          (fun b => Option.some b) = none
      rw [(ih (q ++ "A" ++ "/") pB (q ++ "A" ++ "/")).1]
      rfl

/-- C2 (code bug): `move_folder` never checks whether the destination lies
inside the moved folder's subtree.  Moving A under its own child B
reparents A (corrupting the tree into a cycle) and then
`_update_subfolder_paths` recurses over that cycle without terminating:
for every recursion budget the operation fails to complete — it neither
rejects the move with an error nor leaves the tree unchanged. -/
theorem c2_move_into_descendant_never_completes (fuel : Nat) :
    moveFolder fuel c2Db 0 (some 1) = none := by
  show (match updateSubfolderPaths fuel (c2CycleDb ("/A/B/" ++ "A" ++ "/") "/A/B/") 0
          ("/A/B/" ++ "A" ++ "/") with
    | none => (none : Option (Except String (Option Db)))
    | some db2 => some (.ok (some db2))) = none
  rw [(c2_cycle_no_fuel fuel ("/A/B/" ++ "A" ++ "/") "/A/B/" ("/A/B/" ++ "A" ++ "/")).1]

/-- Counterexample to C4: `create_document` inserts no initial
`DocumentVersion` row, so after the single `add_version` call the document
has `version = 1` and exactly one version row — not `version = 2` with two
rows as the claim asserts. -/
theorem c4_counterexample :
    (getDocument c4Db3 1).map (fun d => d.version) = some 1
    ∧ countVersions c4Db3 1 = 1
    ∧ ¬((getDocument c4Db3 1).map (fun d => d.version) = some 2 ∧ countVersions c4Db3 1 = 2) := by
  decide

/-- C4 as amended: after creating the root folder and the document,
D has `version = 1`, the folder's `document_count` is 1 and no
DocumentVersion rows exist; after exactly one `add_version` call,
D has `version = 1` and exactly one DocumentVersion row exists, and from
that call on `D.version` equals the highest `version_number` among its
rows. -/
theorem c4_versioning_scenario :
    (getFolder c4Db2 0).map (fun f => f.documentCount) = some 1
    ∧ (getDocument c4Db2 1).map (fun d => d.version) = some 1
    ∧ countVersions c4Db2 1 = 0
    ∧ (getDocument c4Db3 1).map (fun d => d.version) = some 1
    ∧ countVersions c4Db3 1 = 1
    ∧ (getDocument c4Db3 1).map (fun d => d.version) = some (maxVersionNumber c4Db3 1) := by
  decide

theorem find?_map_of_pred {α : Type} (g : α → α) (p : α → Bool) (hp : ∀ a, p (g a) = p a) :
    ∀ l : List α, (l.map g).find? p = (l.find? p).map g := by
  intro l
  induction l with
  | nil => rfl
  | cons a t ih =>
    by_cases h : p a = true
    · rw [List.map_cons, List.find?_cons_of_pos _ (by rw [hp]; exact h),
        List.find?_cons_of_pos _ h, Option.map_some']
    · rw [List.map_cons, List.find?_cons_of_neg _ (by rw [hp]; simpa using h),
        List.find?_cons_of_neg _ (by simpa using h), ih]

/-- C5: on any existing non-deleted document, `create_document_version`
assigns `version_number = max(existing version numbers) + 1` (so 1 when the
document has no version rows), appends exactly one new version row leaving
all earlier rows untouched, and sets the document's `version` field to the
same number. -/
theorem c5_add_version_increments (db : Db) (did : Nat) (spath : String) (sz uby : Nat)
    (cs : Option String) (doc : DmsDocument) (h : getDocument db did = some doc) :
    ∃ db1 v, createDocumentVersion db did spath sz uby cs = .ok (db1, v)
      ∧ v.versionNumber = maxVersionNumber db did + 1
      ∧ (db.versions.filter (fun w => w.documentId == did) = [] → v.versionNumber = 1)
      ∧ db1.versions = db.versions ++ [v]
      ∧ (getDocument db1 did).map (fun d => d.version) = some (maxVersionNumber db did + 1) := by
  refine ⟨dbAfterVersion db did spath sz uby cs, nextVersionRow db did spath sz uby cs,
    ?_, rfl, ?_, rfl, ?_⟩
  · simp only [createDocumentVersion, h]
  · intro hemp
    unfold nextVersionRow maxVersionNumber
    rw [hemp]
    rfl
  · have hcomm := find?_map_of_pred
      (fun d : DmsDocument => if d.id == did then { d with version := maxVersionNumber db did + 1 }
        else d)
      (fun d : DmsDocument => d.id == did && !d.isDeleted)
      (fun a => by by_cases ha : (a.id == did) = true <;> simp [ha])
      db.documents
    have hid : (doc.id == did) = true := by
      have hps := List.find?_some h
      exact (Bool.and_elim_left hps)
    unfold getDocument at h
    unfold getDocument dbAfterVersion
    rw [show ({ db with
        versions := db.versions ++ [nextVersionRow db did spath sz uby cs]
        documents := db.documents.map (fun d => if d.id == did
          then { d with version := maxVersionNumber db did + 1 } else d)
        nextId := db.nextId + 1 } : Db).documents
      = db.documents.map (fun d => if d.id == did
          then { d with version := maxVersionNumber db did + 1 } else d) from rfl]
    rw [hcomm, h, Option.map_some', Option.map_some', if_pos hid]

/-- Witness for C5 at the concrete store `c5Db`. -/
theorem c5_add_version_increments_witness :
    ∃ db1 v, createDocumentVersion c5Db 5 "documents/v4" 8 9 none = .ok (db1, v)
      ∧ v.versionNumber = maxVersionNumber c5Db 5 + 1
      ∧ (c5Db.versions.filter (fun w => w.documentId == 5) = [] → v.versionNumber = 1)
      ∧ db1.versions = c5Db.versions ++ [v]
      ∧ (getDocument db1 5).map (fun d => d.version) = some (maxVersionNumber c5Db 5 + 1) :=
  c5_add_version_increments c5Db 5 "documents/v4" 8 9 none c5Doc (by decide)

theorem checkFolderPermission_succ (db : Db) (now fuel folderId userId : Nat)
    (userDept : Option String) (requiredLevel : String) :
    checkFolderPermission db now (fuel + 1) folderId userId userDept requiredLevel =
      (if userCheck db now folderId userId requiredLevel then true
      else if deptCheck db now folderId userDept requiredLevel then true
      else
        match getFolder db folderId with
        | none => false
        | some folder =>
          match folder.parentFolderId with
          | none => false
          | some parentId =>
            match db.folderPerms.find?
                (fun p => p.folderId == parentId && p.inheritToSubfolders) with
            | none => false
            | some _ =>
              checkFolderPermission db now fuel parentId userId userDept requiredLevel) := rfl

theorem checkFolderPermission_mono (db : Db) (now : Nat) :
    ∀ fuel folderId userId userDept requiredLevel,
      checkFolderPermission db now fuel folderId userId userDept requiredLevel = true →
      checkFolderPermission db now (fuel + 1) folderId userId userDept requiredLevel = true := by
  intro fuel
  induction fuel with
  | zero =>
    intro _ _ _ _ h
    exact absurd h (by simp [checkFolderPermission])
  | succ n ih =>
    intro folderId userId userDept requiredLevel h
    rw [checkFolderPermission_succ] at h
    rw [checkFolderPermission_succ]
    by_cases hu : userCheck db now folderId userId requiredLevel = true
    · rw [if_pos hu]
    · rw [if_neg hu] at h ⊢
      by_cases hd : deptCheck db now folderId userDept requiredLevel = true
      · rw [if_pos hd]
      · rw [if_neg hd] at h ⊢
        cases hf : getFolder db folderId with
        | none => simp only [hf] at h; exact absurd h (by decide)
        | some folder =>
          simp only [hf] at h ⊢
          cases hp : folder.parentFolderId with
          | none => simp only [hp] at h; exact absurd h (by decide)
          | some parentId =>
            simp only [hp] at h ⊢
            cases hq : db.folderPerms.find?
                (fun p => p.folderId == parentId && p.inheritToSubfolders) with
            | none => simp only [hq] at h; exact absurd h (by decide)
            | some q =>
              simp only [hq] at h ⊢
              exact ih parentId userId userDept requiredLevel h

theorem find?_decomp {α : Type} (p : α → Bool) :
    ∀ (l : List α) (a : α), l.find? p = some a →
      ∃ l1 l2, l = l1 ++ a :: l2 ∧ ∀ b ∈ l1, p b = false := by
  intro l
  induction l with
  | nil => intro a h; cases h
  | cons x t ih =>
    intro a h
    by_cases hx : p x = true
    · rw [List.find?_cons_of_pos _ hx] at h
      obtain rfl : x = a := by injection h
      exact ⟨[], t, rfl, by intro b hb; cases hb⟩
    · rw [List.find?_cons_of_neg _ (by simpa using hx)] at h
      obtain ⟨l1, l2, rfl, hb⟩ := ih a h
      refine ⟨x :: l1, l2, rfl, ?_⟩
      intro b hb'
      rcases List.mem_cons.mp hb' with rfl | hmem
      · simpa using hx
      · exact hb b hmem

theorem nodup_decomp_ne {α : Type} (key : α → Nat) (l1 l2 : List α) (a : α)
    (hnd : ((l1 ++ a :: l2).map key).Nodup) : ∀ b ∈ l1 ++ l2, key b ≠ key a := by
  rw [List.map_append, List.map_cons, List.nodup_append] at hnd
  obtain ⟨h1, h2, hdisj⟩ := hnd
  rw [List.nodup_cons] at h2
  intro b hb heq
  rcases List.mem_append.mp hb with hb1 | hb2
  · exact hdisj (heq ▸ List.mem_map_of_mem key hb1) (List.mem_cons_self _ _)
  · exact h2.1 (heq ▸ List.mem_map_of_mem key hb2)

theorem map_update_of_ne {α : Type} (key : α → Nat) (k : Nat) (g : α → α) :
    ∀ l : List α, (∀ b ∈ l, key b ≠ k) →
      l.map (fun x => if key x == k then g x else x) = l := by
  intro l
  induction l with
  | nil => intro _; rfl
  | cons x t ih =>
    intro h
    rw [List.map_cons, if_neg (by simpa using h x (List.mem_cons_self _ _)),
      ih (fun b hb => h b (List.mem_cons_of_mem _ hb))]

theorem map_key_of_update {α : Type} (key : α → Nat) (k : Nat) (g : α → α)
    (hg : ∀ x, key x = k → key (g x) = key x) :
    ∀ l : List α, (l.map (fun x => if key x == k then g x else x)).map key = l.map key := by
  intro l
  induction l with
  | nil => rfl
  | cons x t ih =>
    rw [List.map_cons, List.map_cons, List.map_cons]
    by_cases hx : key x = k
    · rw [if_pos (by simpa using hx), hg x hx, ih]
    · rw [if_neg (by simpa using hx), ih]

theorem countP_append_cons (p : DmsDocument → Bool) (l1 l2 : List DmsDocument)
    (d : DmsDocument) :
    (l1 ++ d :: l2).countP p = l1.countP p + l2.countP p + (if p d then 1 else 0) := by
  rw [List.countP_append, List.countP_cons]
  omega

theorem eq_of_mem_nodup_key {α : Type} (key : α → Nat) (l : List α)
    (hnd : (l.map key).Nodup) :
    ∀ a ∈ l, ∀ b ∈ l, key a = key b → a = b := by
  induction l with
  | nil => intro a ha; cases ha
  | cons x t ih =>
    rw [List.map_cons, List.nodup_cons] at hnd
    intro a ha b hb hk
    rcases List.mem_cons.mp ha with rfl | ha' <;> rcases List.mem_cons.mp hb with rfl | hb'
    · rfl
    · exact absurd (hk ▸ List.mem_map_of_mem key hb') hnd.1
    · exact absurd (hk ▸ List.mem_map_of_mem key ha') hnd.1
    · exact ih hnd.2 a ha' b hb' hk

theorem decCount_nonneg (c : Int) : 0 ≤ decCount c := le_max_left 0 _

theorem decCount_of_pos (c : Int) (h : 1 ≤ c) : decCount c = c - 1 := by
  unfold decCount
  rw [if_neg (by omega)]
  omega

theorem getFolder_facts (db : Db) (fid : Nat) (f : DmsFolder)
    (h : getFolder db fid = some f) : f ∈ db.folders ∧ f.id = fid ∧ f.isDeleted = false := by
  have hp := List.find?_some h
  have hmem := List.mem_of_find?_eq_some h
  refine ⟨hmem, ?_, ?_⟩
  · have := Bool.and_elim_left hp
    simpa using this
  · have := Bool.and_elim_right hp
    simpa using this

theorem getFolder_none (db : Db) (fid : Nat) (h : getFolder db fid = none) :
    ∀ f ∈ db.folders, f.isDeleted = false → f.id ≠ fid := by
  intro f hf hdel heq
  have := List.find?_eq_none.mp h f hf
  simp [heq, hdel] at this

theorem getDocument_decomp (db : Db) (did : Nat) (doc : DmsDocument)
    (h : getDocument db did = some doc)
    (hnd : (db.documents.map DmsDocument.id).Nodup) :
    ∃ l1 l2, db.documents = l1 ++ doc :: l2
      ∧ doc.id = did ∧ doc.isDeleted = false
      ∧ (∀ b ∈ l1, b.id ≠ did) ∧ (∀ b ∈ l2, b.id ≠ did) := by
  have hp := List.find?_some h
  have hid : doc.id = did := by
    have := Bool.and_elim_left hp
    simpa using this
  have hdel : doc.isDeleted = false := by
    have := Bool.and_elim_right hp
    simpa using this
  obtain ⟨l1, l2, heq, _⟩ := find?_decomp _ _ _ h
  have hne := nodup_decomp_ne DmsDocument.id l1 l2 doc (heq ▸ hnd)
  refine ⟨l1, l2, heq, hid, hdel, ?_, ?_⟩
  · intro b hb
    rw [← hid]
    exact hne b (List.mem_append.mpr (Or.inl hb))
  · intro b hb
    rw [← hid]
    exact hne b (List.mem_append.mpr (Or.inr hb))

theorem relatedFolder_facts (db : Db) (ofid : Nat) (of : DmsFolder)
    (h : db.folders.find? (fun f => f.id == ofid) = some of) :
    of ∈ db.folders ∧ of.id = ofid := by
  refine ⟨List.mem_of_find?_eq_some h, ?_⟩
  have := List.find?_some h
  simpa using this

theorem relatedFolder_none (db : Db) (ofid : Nat)
    (h : db.folders.find? (fun f => f.id == ofid) = none) :
    ∀ f ∈ db.folders, f.id ≠ ofid := by
  intro f hf heq
  have := List.find?_eq_none.mp h f hf
  simp [heq] at this

theorem countP_concat (p : DmsDocument → Bool) (l : List DmsDocument) (d : DmsDocument) :
    (l ++ [d]).countP p = l.countP p + (if p d then 1 else 0) := by
  rw [List.countP_append, List.countP_cons, List.countP_nil]
  omega

theorem countsOk_createDocument (sp : Nat → String → String) (db : Db)
    (n ofn mt : String) (sz : Nat) (fid? : Option Nat) (tg : List String) (st : String)
    (hok : countsOk db) :
    countsOk (createDocument sp db n ofn mt sz fid? tg st).1 := by
  cases fid? with
  | none =>
    intro f' hf' hdel
    simp only [createDocument] at hf' ⊢
    unfold docsInFolder
    simp only
    rw [countP_concat]
    rw [if_neg (by simp [docMatches])]
    have := hok f' hf' hdel
    unfold docsInFolder at this
    omega
  | some tfid =>
    cases hgf : getFolder db tfid with
    | none =>
      intro f' hf' hdel
      simp only [createDocument, hgf] at hf' ⊢
      unfold docsInFolder
      simp only
      rw [countP_concat]
      have hne : f'.id ≠ tfid := getFolder_none db tfid hgf f' hf' hdel
      rw [if_neg (by simp [docMatches]; intro h; exact absurd h.symm hne)]
      have := hok f' hf' hdel
      unfold docsInFolder at this
      omega
    | some tf =>
      intro f' hf' hdel
      simp only [createDocument, hgf, setFolderFields] at hf' ⊢
      obtain ⟨f, hf, rfl⟩ := List.mem_map.mp hf'
      unfold docsInFolder
      simp only
      rw [countP_concat]
      by_cases hid : (f.id == tfid) = true
      · have hidq : f.id = tfid := by simpa using hid
        rw [if_pos hid] at hdel ⊢
        have hdel' : f.isDeleted = false := hdel
        have hcnt := hok f hf hdel'
        unfold docsInFolder at hcnt
        simp only [docMatches, hidq] at hcnt ⊢
        rw [if_pos (by simp)]
        rw [hcnt]
        push_cast
        ring
      · rw [if_neg hid] at hdel ⊢
        have hdel' : f.isDeleted = false := hdel
        have hcnt := hok f hf hdel'
        unfold docsInFolder at hcnt
        have hne : f.id ≠ tfid := by simpa using hid
        rw [if_neg (by simp [docMatches]; intro h; exact absurd h.symm hne)]
        simpa using hcnt

theorem countsNonneg_createDocument (sp : Nat → String → String) (db : Db)
    (n ofn mt : String) (sz : Nat) (fid? : Option Nat) (tg : List String) (st : String)
    (hnn : countsNonneg db) :
    countsNonneg (createDocument sp db n ofn mt sz fid? tg st).1 := by
  cases fid? with
  | none => exact hnn
  | some tfid =>
    cases hgf : getFolder db tfid with
    | none =>
      intro f' hf'
      simp only [createDocument, hgf] at hf'
      exact hnn f' hf'
    | some tf =>
      intro f' hf'
      simp only [createDocument, hgf, setFolderFields] at hf'
      obtain ⟨f, hf, rfl⟩ := List.mem_map.mp hf'
      by_cases hid : (f.id == tfid) = true
      · rw [if_pos hid]
        have := hnn f hf
        simp only
        omega
      · rw [if_neg hid]
        exact hnn f hf

theorem wf_createDocument (sp : Nat → String → String) (db : Db)
    (n ofn mt : String) (sz : Nat) (fid? : Option Nat) (tg : List String) (st : String)
    (hwf : WfDb db) : WfDb (createDocument sp db n ofn mt sz fid? tg st).1 := by
  obtain ⟨hfnd, hdnd, hbnd⟩ := hwf
  have hfolders : ((createDocument sp db n ofn mt sz fid? tg st).1.folders.map
      DmsFolder.id).Nodup := by
    cases fid? with
    | none => exact hfnd
    | some tfid =>
      cases hgf : getFolder db tfid with
      | none => simp only [createDocument, hgf]; exact hfnd
      | some tf =>
        simp only [createDocument, hgf, setFolderFields]
        rw [map_key_of_update DmsFolder.id tfid
          (fun f => { f with documentCount := f.documentCount + 1 }) (fun x _ => rfl)]
        exact hfnd
  have hdocs : (createDocument sp db n ofn mt sz fid? tg st).1.documents
      = db.documents ++ [(createDocument sp db n ofn mt sz fid? tg st).2] := by
    cases fid? with
    | none => rfl
    | some tfid =>
      cases hgf : getFolder db tfid
      · simp only [createDocument, hgf]
      · simp only [createDocument, hgf]
        rfl
  have hnid : (createDocument sp db n ofn mt sz fid? tg st).1.nextId = db.nextId + 1 := by
    cases fid? with
    | none => rfl
    | some tfid =>
      cases hgf : getFolder db tfid
      · simp only [createDocument, hgf, setFolderFields]
      · simp only [createDocument, hgf, setFolderFields]
  have hdid : (createDocument sp db n ofn mt sz fid? tg st).2.id = db.nextId := by
    cases fid? with
    | none => rfl
    | some tfid =>
      cases hgf : getFolder db tfid <;> simp only [createDocument, hgf]
  refine ⟨hfolders, ?_, ?_⟩
  · rw [hdocs, List.map_append, List.map_singleton, hdid]
    rw [List.nodup_append]
    refine ⟨hdnd, List.nodup_singleton _, ?_⟩
    intro x hx hx2
    rw [List.mem_singleton] at hx2
    obtain ⟨d, hd, rfl⟩ := List.mem_map.mp hx
    have := hbnd d hd
    omega
  · intro d hd
    rw [hdocs] at hd
    rw [hnid]
    rcases List.mem_append.mp hd with hd1 | hd2
    · have := hbnd d hd1
      omega
    · rw [List.mem_singleton] at hd2
      rw [hd2, hdid]
      omega

theorem deleteDocument_docs (db : Db) (did : Nat) (doc : DmsDocument)
    (l1 l2 : List DmsDocument) (hdocs : db.documents = l1 ++ doc :: l2) (hid : doc.id = did)
    (hne1 : ∀ b ∈ l1, b.id ≠ did) (hne2 : ∀ b ∈ l2, b.id ≠ did) :
    db.documents.map (fun d => if d.id == did then { doc with isDeleted := true } else d)
      = l1 ++ { doc with isDeleted := true } :: l2 := by
  rw [hdocs, List.map_append, List.map_cons,
    map_update_of_ne DmsDocument.id did (fun _ => { doc with isDeleted := true }) l1 hne1,
    map_update_of_ne DmsDocument.id did (fun _ => { doc with isDeleted := true }) l2 hne2,
    if_pos (by simpa using hid)]

theorem countsOk_deleteDocument (db : Db) (did : Nat) (hok : countsOk db)
    (hdnd : (db.documents.map DmsDocument.id).Nodup) :
    countsOk ((deleteDocument db did).getD db) := by
  cases hgd : getDocument db did with
  | none => simp only [deleteDocument, hgd, Option.getD]; exact hok
  | some doc =>
    obtain ⟨l1, l2, hdocs, hid, hdel, hne1, hne2⟩ := getDocument_decomp db did doc hgd hdnd
    have hmap := deleteDocument_docs db did doc l1 l2 hdocs hid hne1 hne2
    have holdc : ∀ fid0 : Nat, docsInFolder db fid0
        = l1.countP (docMatches fid0) + l2.countP (docMatches fid0)
          + (if docMatches fid0 doc then 1 else 0) := by
      intro fid0
      unfold docsInFolder
      rw [hdocs, countP_append_cons]
    have hnewc : ∀ fid0 : Nat,
        (l1 ++ { doc with isDeleted := true } :: l2).countP (docMatches fid0)
          = l1.countP (docMatches fid0) + l2.countP (docMatches fid0) := by
      intro fid0
      rw [countP_append_cons, if_neg (by simp [docMatches])]
      omega
    cases hofid : doc.folderId with
    | none =>
      have hrel0 : relatedFolder db doc.folderId = none := by rw [hofid]; rfl
      intro f' hf' hdel'
      simp only [deleteDocument, hgd, hrel0, Option.getD] at hf' ⊢
      have hcnt := hok f' hf' hdel'
      unfold docsInFolder
      simp only [hmap, hnewc]
      rw [hcnt, holdc, if_neg (by simp [docMatches, hofid])]
      push_cast
      ring
    | some ofid =>
      cases hrel : db.folders.find? (fun f => f.id == ofid) with
      | none =>
        have hrel0 : relatedFolder db doc.folderId = none := by rw [hofid]; exact hrel
        intro f' hf' hdel'
        simp only [deleteDocument, hgd, hrel0, Option.getD] at hf' ⊢
        have hcnt := hok f' hf' hdel'
        have hne : f'.id ≠ ofid := relatedFolder_none db ofid hrel f' hf'
        unfold docsInFolder
        simp only [hmap, hnewc]
        rw [hcnt, holdc, if_neg (by
          simp [docMatches, hofid, hdel]
          intro h
          exact absurd h.symm hne)]
        push_cast
        ring
      | some of =>
        obtain ⟨hofmem, hofid2⟩ := relatedFolder_facts db ofid of hrel
        have hrel0 : relatedFolder db doc.folderId = some of := by rw [hofid]; exact hrel
        intro f' hf' hdel'
        simp only [deleteDocument, hgd, hrel0, Option.getD,
          setFolderFields] at hf' ⊢
        obtain ⟨f, hf, rfl⟩ := List.mem_map.mp hf'
        by_cases hfid : (f.id == of.id) = true
        · have hfeq : f.id = ofid := by
            have : f.id = of.id := by simpa using hfid
            rw [this, hofid2]
          rw [if_pos hfid] at hdel' ⊢
          have hdel2 : f.isDeleted = false := hdel'
          have hcnt := hok f hf hdel2
          have hmatch : docMatches f.id doc = true := by
            simp [docMatches, hofid, hfeq, hdel]
          rw [holdc] at hcnt
          rw [hmatch] at hcnt
          simp only at hcnt ⊢
          unfold docsInFolder
          simp only [hmap, hnewc]
          rw [decCount_of_pos _ (by rw [hcnt]; push_cast; omega), hcnt]
          push_cast
          ring
        · rw [if_neg hfid] at hdel' ⊢
          have hdel2 : f.isDeleted = false := hdel'
          have hcnt := hok f hf hdel2
          have hne : f.id ≠ ofid := by
            intro h
            exact absurd (by rw [h, hofid2] : f.id = of.id) (by simpa using hfid)
          unfold docsInFolder
          simp only [hmap, hnewc]
          rw [hcnt, holdc, if_neg (by
            simp [docMatches, hofid, hdel]
            intro h
            exact absurd h.symm hne)]
          push_cast
          ring

theorem countsNonneg_deleteDocument (db : Db) (did : Nat) (hnn : countsNonneg db) :
    countsNonneg ((deleteDocument db did).getD db) := by
  cases hgd : getDocument db did with
  | none => simp only [deleteDocument, hgd, Option.getD]; exact hnn
  | some doc =>
    cases hofid : doc.folderId with
    | none =>
      intro f' hf'
      simp only [deleteDocument, hgd, hofid, relatedFolder, Option.getD] at hf'
      exact hnn f' hf'
    | some ofid =>
      cases hrel : db.folders.find? (fun f => f.id == ofid) with
      | none =>
        intro f' hf'
        simp only [deleteDocument, hgd, hofid, relatedFolder, hrel, Option.getD] at hf'
        exact hnn f' hf'
      | some of =>
        intro f' hf'
        simp only [deleteDocument, hgd, hofid, relatedFolder, hrel, Option.getD,
          setFolderFields] at hf'
        obtain ⟨f, hf, rfl⟩ := List.mem_map.mp hf'
        by_cases hfid : (f.id == of.id) = true
        · rw [if_pos hfid]
          exact decCount_nonneg _
        · rw [if_neg hfid]
          exact hnn f hf

theorem wf_deleteDocument (db : Db) (did : Nat) (hwf : WfDb db) :
    WfDb ((deleteDocument db did).getD db) := by
  obtain ⟨hfnd, hdnd, hbnd⟩ := hwf
  cases hgd : getDocument db did with
  | none => simp only [deleteDocument, hgd, Option.getD]; exact ⟨hfnd, hdnd, hbnd⟩
  | some doc =>
    have hgd' : db.documents.find? (fun d => d.id == did && !d.isDeleted) = some doc := hgd
    have hps := List.find?_some hgd'
    have hiddoc : doc.id = did := by
      have := Bool.and_elim_left hps
      simpa using this
    have hdocskey : (db.documents.map
        (fun d => if d.id == did then { doc with isDeleted := true } else d)).map
          DmsDocument.id = db.documents.map DmsDocument.id :=
      map_key_of_update DmsDocument.id did (fun _ => { doc with isDeleted := true })
        (fun x hx => show doc.id = x.id by rw [hiddoc, hx]) db.documents
    have hdocbound : ∀ d ∈ db.documents.map
        (fun d => if d.id == did then { doc with isDeleted := true } else d),
        d.id < db.nextId := by
      intro d' hd'
      obtain ⟨d, hd, rfl⟩ := List.mem_map.mp hd'
      by_cases hx : (d.id == did) = true
      · rw [if_pos hx]
        have hmem := List.mem_of_find?_eq_some hgd
        exact hbnd doc hmem
      · rw [if_neg hx]
        exact hbnd d hd
    cases hofid : doc.folderId with
    | none =>
      have hrel0 : relatedFolder db doc.folderId = none := by rw [hofid]; rfl
      simp only [deleteDocument, hgd, hrel0, Option.getD]
      exact ⟨hfnd, by rw [hdocskey]; exact hdnd, hdocbound⟩
    | some ofid =>
      cases hrel : db.folders.find? (fun f => f.id == ofid) with
      | none =>
        have hrel0 : relatedFolder db doc.folderId = none := by rw [hofid]; exact hrel
        simp only [deleteDocument, hgd, hrel0, Option.getD]
        exact ⟨hfnd, by rw [hdocskey]; exact hdnd, hdocbound⟩
      | some of =>
        have hrel0 : relatedFolder db doc.folderId = some of := by rw [hofid]; exact hrel
        simp only [deleteDocument, hgd, hrel0, Option.getD, setFolderFields]
        refine ⟨?_, by rw [hdocskey]; exact hdnd, hdocbound⟩
        rw [map_key_of_update DmsFolder.id of.id
          (fun g => { g with documentCount := decCount g.documentCount }) (fun x _ => rfl)]
        exact hfnd

theorem map_docs_decomp (l1 l2 : List DmsDocument) (doc x : DmsDocument) (did : Nat)
    (hid : doc.id = did) (hne1 : ∀ b ∈ l1, b.id ≠ did) (hne2 : ∀ b ∈ l2, b.id ≠ did) :
    (l1 ++ doc :: l2).map (fun d => if d.id == did then x else d) = l1 ++ x :: l2 := by
  rw [List.map_append, List.map_cons,
    map_update_of_ne DmsDocument.id did (fun _ => x) l1 hne1,
    map_update_of_ne DmsDocument.id did (fun _ => x) l2 hne2,
    if_pos (by simpa using hid)]

theorem updMeta_folderId (upd : DocumentUpdate) (d : DmsDocument) :
    (updConf upd (updStatus upd (updTags upd d))).folderId = d.folderId := by
  unfold updConf updStatus updTags
  cases truthyStr upd.confidentialityLevel <;> cases truthyStr upd.status
    <;> cases upd.tags <;> rfl

theorem updMeta_isDeleted (upd : DocumentUpdate) (d : DmsDocument) :
    (updConf upd (updStatus upd (updTags upd d))).isDeleted = d.isDeleted := by
  unfold updConf updStatus updTags
  cases truthyStr upd.confidentialityLevel <;> cases truthyStr upd.status
    <;> cases upd.tags <;> rfl

theorem updMeta_id (upd : DocumentUpdate) (d : DmsDocument) :
    (updConf upd (updStatus upd (updTags upd d))).id = d.id := by
  unfold updConf updStatus updTags
  cases truthyStr upd.confidentialityLevel <;> cases truthyStr upd.status
    <;> cases upd.tags <;> rfl

theorem updName_folderId (upd : DocumentUpdate) (d : DmsDocument) :
    (updName upd d).folderId = d.folderId := by
  unfold updName
  cases truthyStr upd.name <;> rfl

theorem updName_isDeleted (upd : DocumentUpdate) (d : DmsDocument) :
    (updName upd d).isDeleted = d.isDeleted := by
  unfold updName
  cases truthyStr upd.name <;> rfl

theorem updName_id (upd : DocumentUpdate) (d : DmsDocument) :
    (updName upd d).id = d.id := by
  unfold updName
  cases truthyStr upd.name <;> rfl

theorem docMatches_updMeta (upd : DocumentUpdate) (fid : Nat) (d : DmsDocument) :
    docMatches fid (updConf upd (updStatus upd (updTags upd d))) = docMatches fid d := by
  unfold docMatches
  rw [updMeta_folderId, updMeta_isDeleted]

theorem docMatches_updName (upd : DocumentUpdate) (fid : Nat) (d : DmsDocument) :
    docMatches fid (updName upd d) = docMatches fid d := by
  unfold docMatches
  rw [updName_folderId, updName_isDeleted]

theorem relatedFolder_some_elim (db : Db) (fid? : Option Nat) (of : DmsFolder)
    (h : relatedFolder db fid? = some of) :
    ∃ ofid, fid? = some ofid ∧ of ∈ db.folders ∧ of.id = ofid := by
  cases fid? with
  | none => cases h
  | some ofid =>
    obtain ⟨hmem, hid⟩ := relatedFolder_facts db ofid of h
    exact ⟨ofid, rfl, hmem, hid⟩

theorem relatedFolder_none_elim (db : Db) (fid? : Option Nat)
    (h : relatedFolder db fid? = none) :
    fid? = none ∨ ∃ ofid, fid? = some ofid ∧ ∀ f ∈ db.folders, f.id ≠ ofid := by
  cases fid? with
  | none => exact Or.inl rfl
  | some ofid => exact Or.inr ⟨ofid, rfl, relatedFolder_none db ofid h⟩

theorem countsOk_updateDocument (db : Db) (did : Nat) (upd : DocumentUpdate)
    (hok : countsOk db) (hdnd : (db.documents.map DmsDocument.id).Nodup) :
    countsOk ((updateDocument db did upd).getD db) := by
  cases hgd : getDocument db did with
  | none => simp only [updateDocument, hgd, Option.getD]; exact hok
  | some doc =>
    obtain ⟨l1, l2, hdocs, hid, hdel, hne1, hne2⟩ := getDocument_decomp db did doc hgd hdnd
    have holdc : ∀ fid0 : Nat, docsInFolder db fid0
        = l1.countP (docMatches fid0) + l2.countP (docMatches fid0)
          + (if docMatches fid0 doc then 1 else 0) := by
      intro fid0
      unfold docsInFolder
      rw [hdocs, countP_append_cons]
    cases hupdf : upd.folderId with
    | none =>
      intro f' hf' hdel'
      simp only [updateDocument, hgd, hupdf, Option.getD] at hf' ⊢
      have hcnt := hok f' hf' hdel'
      unfold docsInFolder
      rw [hdocs, map_docs_decomp l1 l2 doc _ did hid hne1 hne2, countP_append_cons,
        docMatches_updMeta, docMatches_updName, hcnt, holdc]
    | some nfid =>
      cases horel : relatedFolder db doc.folderId with
      | none =>
        have holdm : ∀ f'' : DmsFolder, f'' ∈ db.folders → docMatches f''.id doc = false := by
          intro f'' hmem
          rcases relatedFolder_none_elim db doc.folderId horel with hnone | ⟨ofid, hofid, hall⟩
          · simp [docMatches, hnone]
          · simp only [docMatches, hofid, Bool.and_eq_false_iff]
            left
            simp only [beq_eq_false_iff_ne, ne_eq, Option.some.injEq]
            exact fun heq => hall f'' hmem heq.symm
        cases hgn : getFolder db nfid with
        | none =>
          intro f' hf' hdel'
          simp only [updateDocument, hgd, hupdf, horel, hgn, Option.getD] at hf' ⊢
          have hcnt := hok f' hf' hdel'
          have hnotnew : f'.id ≠ nfid := getFolder_none db nfid hgn f' hf' hdel'
          unfold docsInFolder
          rw [hdocs, map_docs_decomp l1 l2 doc _ did hid hne1 hne2, countP_append_cons,
            docMatches_updMeta]
          rw [if_neg (by
            simp only [docMatches, Bool.and_eq_true, beq_iff_eq, Option.some.injEq, not_and]
            intro h
            exact absurd h.symm hnotnew)]
          rw [hcnt, holdc, holdm f' hf']
          simp
        | some nf =>
          obtain ⟨hnfmem, hnfid, hnfdel⟩ := getFolder_facts db nfid nf hgn
          intro f' hf' hdel'
          simp only [updateDocument, hgd, hupdf, horel, hgn, Option.getD,
            setFolderFields] at hf' ⊢
          obtain ⟨f, hf, rfl⟩ := List.mem_map.mp hf'
          by_cases hb2 : (f.id == nf.id) = true
          · have hfeq : f.id = nfid := by
              have : f.id = nf.id := by simpa using hb2
              rw [this, hnfid]
            rw [if_pos hb2] at hdel' ⊢
            have hdel2 : f.isDeleted = false := hdel'
            have hcnt := hok f hf hdel2
            unfold docsInFolder
            rw [hdocs, map_docs_decomp l1 l2 doc _ did hid hne1 hne2, countP_append_cons,
              docMatches_updMeta]
            rw [if_pos (by
              simp [docMatches, updName_isDeleted, hdel, hfeq])]
            simp only
            rw [hcnt, holdc, holdm f hf]
            push_cast
            ring
          · rw [if_neg hb2] at hdel' ⊢
            have hcnt := hok f hf hdel'
            have hnotnew : f.id ≠ nfid := by
              intro h
              exact absurd (by rw [h, hnfid] : f.id = nf.id) (by simpa using hb2)
            unfold docsInFolder
            rw [hdocs, map_docs_decomp l1 l2 doc _ did hid hne1 hne2, countP_append_cons,
              docMatches_updMeta]
            rw [if_neg (by
              simp only [docMatches, Bool.and_eq_true, beq_iff_eq, Option.some.injEq, not_and]
              intro h
              exact absurd h.symm hnotnew)]
            rw [hcnt, holdc, holdm f hf]
            simp
      | some of =>
        obtain ⟨ofid, hofid, hofmem, hofid2⟩ := relatedFolder_some_elim db doc.folderId of horel
        cases hgn : getFolder db nfid with
        | none =>
          intro f' hf' hdel'
          simp only [updateDocument, hgd, hupdf, horel, hgn, Option.getD,
            setFolderFields] at hf' ⊢
          obtain ⟨f, hf, rfl⟩ := List.mem_map.mp hf'
          by_cases hb1 : (f.id == of.id) = true
          · have hfeq : f.id = ofid := by
              have : f.id = of.id := by simpa using hb1
              rw [this, hofid2]
            rw [if_pos hb1] at hdel' ⊢
            have hdel2 : f.isDeleted = false := hdel'
            have hcnt := hok f hf hdel2
            have hmatch : docMatches f.id doc = true := by
              simp [docMatches, hofid, hfeq, hdel]
            have hnotnew : f.id ≠ nfid := getFolder_none db nfid hgn f hf hdel2
            unfold docsInFolder
            rw [hdocs, map_docs_decomp l1 l2 doc _ did hid hne1 hne2, countP_append_cons,
              docMatches_updMeta]
            rw [if_neg (by
              simp only [docMatches, Bool.and_eq_true, beq_iff_eq, Option.some.injEq, not_and]
              intro h
              exact absurd h.symm hnotnew)]
            rw [holdc, hmatch] at hcnt
            simp only at hcnt ⊢
            rw [decCount_of_pos _ (by rw [hcnt]; push_cast; omega), hcnt]
            push_cast
            ring
          · rw [if_neg hb1] at hdel' ⊢
            have hcnt := hok f hf hdel'
            have hnomatch : docMatches f.id doc = false := by
              simp only [docMatches, hofid, Bool.and_eq_false_iff]
              left
              simp only [beq_eq_false_iff_ne, ne_eq, Option.some.injEq]
              intro heq
              exact absurd (by rw [← heq, hofid2] : f.id = of.id) (by simpa using hb1)
            have hnotnew : f.id ≠ nfid := getFolder_none db nfid hgn f hf hdel'
            unfold docsInFolder
            rw [hdocs, map_docs_decomp l1 l2 doc _ did hid hne1 hne2, countP_append_cons,
              docMatches_updMeta]
            rw [if_neg (by
              simp only [docMatches, Bool.and_eq_true, beq_iff_eq, Option.some.injEq, not_and]
              intro h
              exact absurd h.symm hnotnew)]
            rw [hcnt, holdc, hnomatch]
            simp
        | some nf =>
          obtain ⟨hnfmem, hnfid, hnfdel⟩ := getFolder_facts db nfid nf hgn
          intro f' hf' hdel'
          simp only [updateDocument, hgd, hupdf, horel, hgn, Option.getD,
            setFolderFields] at hf' ⊢
          rw [List.map_map] at hf'
          obtain ⟨f, hf, rfl⟩ := List.mem_map.mp hf'
          simp only [Function.comp] at hdel' ⊢
          by_cases hb1 : (f.id == of.id) = true
          · have hfeq1 : f.id = ofid := by
              have : f.id = of.id := by simpa using hb1
              rw [this, hofid2]
            rw [if_pos hb1] at hdel' ⊢
            by_cases hb2 : (f.id == nf.id) = true
            · have hfeq2 : f.id = nfid := by
                have : f.id = nf.id := by simpa using hb2
                rw [this, hnfid]
              rw [if_pos (by simpa using hb2)] at hdel' ⊢
              have hdel2 : f.isDeleted = false := hdel'
              have hcnt := hok f hf hdel2
              have hmatch : docMatches f.id doc = true := by
                simp [docMatches, hofid, hfeq1, hdel]
              unfold docsInFolder
              rw [hdocs, map_docs_decomp l1 l2 doc _ did hid hne1 hne2, countP_append_cons,
                docMatches_updMeta]
              rw [if_pos (by
                simp [docMatches, updName_isDeleted, hdel, hfeq2])]
              rw [holdc, hmatch] at hcnt
              simp only at hcnt ⊢
              rw [decCount_of_pos _ (by rw [hcnt]; push_cast; omega), hcnt]
              push_cast
              ring
            · rw [if_neg (by simpa using hb2)] at hdel' ⊢
              have hdel2 : f.isDeleted = false := hdel'
              have hcnt := hok f hf hdel2
              have hmatch : docMatches f.id doc = true := by
                simp [docMatches, hofid, hfeq1, hdel]
              have hnotnew : f.id ≠ nfid := by
                intro h
                exact absurd (by rw [h, hnfid] : f.id = nf.id) (by simpa using hb2)
              unfold docsInFolder
              rw [hdocs, map_docs_decomp l1 l2 doc _ did hid hne1 hne2, countP_append_cons,
                docMatches_updMeta]
              rw [if_neg (by
                simp only [docMatches, Bool.and_eq_true, beq_iff_eq, Option.some.injEq, not_and]
                intro h
                exact absurd h.symm hnotnew)]
              rw [holdc, hmatch] at hcnt
              simp only at hcnt ⊢
              rw [decCount_of_pos _ (by rw [hcnt]; push_cast; omega), hcnt]
              push_cast
              ring
          · rw [if_neg hb1] at hdel' ⊢
            have hnomatch : ∀ hdel2 : f.isDeleted = false, docMatches f.id doc = false := by
              intro hdel2
              simp only [docMatches, hofid, Bool.and_eq_false_iff]
              left
              simp only [beq_eq_false_iff_ne, ne_eq, Option.some.injEq]
              intro heq
              exact absurd (by rw [← heq, hofid2] : f.id = of.id) (by simpa using hb1)
            by_cases hb2 : (f.id == nf.id) = true
            · have hfeq2 : f.id = nfid := by
                have : f.id = nf.id := by simpa using hb2
                rw [this, hnfid]
              rw [if_pos hb2] at hdel' ⊢
              have hdel2 : f.isDeleted = false := hdel'
              have hcnt := hok f hf hdel2
              unfold docsInFolder
              rw [hdocs, map_docs_decomp l1 l2 doc _ did hid hne1 hne2, countP_append_cons,
                docMatches_updMeta]
              rw [if_pos (by
                simp [docMatches, updName_isDeleted, hdel, hfeq2])]
              simp only
              rw [hcnt, holdc, hnomatch hdel2]
              push_cast
              ring
            · rw [if_neg hb2] at hdel' ⊢
              have hcnt := hok f hf hdel'
              have hnotnew : f.id ≠ nfid := by
                intro h
                exact absurd (by rw [h, hnfid] : f.id = nf.id) (by simpa using hb2)
              unfold docsInFolder
              rw [hdocs, map_docs_decomp l1 l2 doc _ did hid hne1 hne2, countP_append_cons,
                docMatches_updMeta]
              rw [if_neg (by
                simp only [docMatches, Bool.and_eq_true, beq_iff_eq, Option.some.injEq, not_and]
                intro h
                exact absurd h.symm hnotnew)]
              rw [hcnt, holdc, hnomatch hdel']
              simp

theorem countsNonneg_updateDocument (db : Db) (did : Nat) (upd : DocumentUpdate)
    (hnn : countsNonneg db) : countsNonneg ((updateDocument db did upd).getD db) := by
  cases hgd : getDocument db did with
  | none => simp only [updateDocument, hgd, Option.getD]; exact hnn
  | some doc =>
    cases hupdf : upd.folderId with
    | none =>
      intro f' hf'
      simp only [updateDocument, hgd, hupdf, Option.getD] at hf'
      exact hnn f' hf'
    | some nfid =>
      cases horel : relatedFolder db doc.folderId with
      | none =>
        cases hgn : getFolder db nfid with
        | none =>
          intro f' hf'
          simp only [updateDocument, hgd, hupdf, horel, hgn, Option.getD] at hf'
          exact hnn f' hf'
        | some nf =>
          intro f' hf'
          simp only [updateDocument, hgd, hupdf, horel, hgn, Option.getD,
            setFolderFields] at hf'
          obtain ⟨f, hf, rfl⟩ := List.mem_map.mp hf'
          by_cases hb2 : (f.id == nf.id) = true
          · rw [if_pos hb2]
            have := hnn f hf
            simp only
            omega
          · rw [if_neg hb2]
            exact hnn f hf
      | some of =>
        cases hgn : getFolder db nfid with
        | none =>
          intro f' hf'
          simp only [updateDocument, hgd, hupdf, horel, hgn, Option.getD,
            setFolderFields] at hf'
          obtain ⟨f, hf, rfl⟩ := List.mem_map.mp hf'
          by_cases hb1 : (f.id == of.id) = true
          · rw [if_pos hb1]
            exact decCount_nonneg _
          · rw [if_neg hb1]
            exact hnn f hf
        | some nf =>
          intro f' hf'
          simp only [updateDocument, hgd, hupdf, horel, hgn, Option.getD,
            setFolderFields] at hf'
          rw [List.map_map] at hf'
          obtain ⟨f, hf, rfl⟩ := List.mem_map.mp hf'
          simp only [Function.comp]
          by_cases hb1 : (f.id == of.id) = true
          · rw [if_pos hb1]
            by_cases hb2 : (f.id == nf.id) = true
            · rw [if_pos (by simpa using hb2)]
              have := decCount_nonneg f.documentCount
              simp only
              omega
            · rw [if_neg (by simpa using hb2)]
              exact decCount_nonneg _
          · rw [if_neg hb1]
            by_cases hb2 : (f.id == nf.id) = true
            · rw [if_pos hb2]
              have := hnn f hf
              simp only
              omega
            · rw [if_neg hb2]
              exact hnn f hf

theorem wf_updateDocument (db : Db) (did : Nat) (upd : DocumentUpdate) (hwf : WfDb db) :
    WfDb ((updateDocument db did upd).getD db) := by
  obtain ⟨hfnd, hdnd, hbnd⟩ := hwf
  cases hgd : getDocument db did with
  | none => simp only [updateDocument, hgd, Option.getD]; exact ⟨hfnd, hdnd, hbnd⟩
  | some doc =>
    have hgd' : db.documents.find? (fun d => d.id == did && !d.isDeleted) = some doc := hgd
    have hps := List.find?_some hgd'
    have hiddoc : doc.id = did := by
      have := Bool.and_elim_left hps
      simpa using this
    have hdocmem : doc ∈ db.documents := List.mem_of_find?_eq_some hgd'
    have hdockey : ∀ x : DmsDocument,
        ∀ d5 : DmsDocument, d5.id = did →
        (db.documents.map (fun d => if d.id == did then d5 else d)).map DmsDocument.id
          = db.documents.map DmsDocument.id := by
      intro _ d5 h5
      exact map_key_of_update DmsDocument.id did (fun _ => d5)
        (fun x hx => by rw [h5, hx]) db.documents
    have hdocbound : ∀ d5 : DmsDocument, d5.id = did →
        ∀ d' ∈ db.documents.map (fun d => if d.id == did then d5 else d),
        d'.id < db.nextId := by
      intro d5 h5 d' hd'
      obtain ⟨d, hd, rfl⟩ := List.mem_map.mp hd'
      by_cases hx : (d.id == did) = true
      · rw [if_pos hx, h5, ← hiddoc]
        exact hbnd doc hdocmem
      · rw [if_neg hx]
        exact hbnd d hd
    cases hupdf : upd.folderId with
    | none =>
      simp only [updateDocument, hgd, hupdf, Option.getD]
      refine ⟨hfnd, ?_, ?_⟩
      · rw [hdockey doc _ (by rw [updMeta_id, updName_id, hiddoc])]
        exact hdnd
      · exact hdocbound _ (by rw [updMeta_id, updName_id, hiddoc])
    | some nfid =>
      have hd5id : ∀ p : Option String,
          (updConf upd (updStatus upd (updTags upd
            { updName upd doc with folderId := some nfid, folderPath := p }))).id = did := by
        intro p
        rw [updMeta_id]
        show (updName upd doc).id = did
        rw [updName_id, hiddoc]
      cases horel : relatedFolder db doc.folderId with
      | none =>
        cases hgn : getFolder db nfid with
        | none =>
          simp only [updateDocument, hgd, hupdf, horel, hgn, Option.getD]
          refine ⟨hfnd, ?_, ?_⟩
          · rw [hdockey doc _ (hd5id _)]
            exact hdnd
          · exact hdocbound _ (hd5id _)
        | some nf =>
          simp only [updateDocument, hgd, hupdf, horel, hgn, Option.getD, setFolderFields]
          refine ⟨?_, ?_, ?_⟩
          · rw [map_key_of_update DmsFolder.id nf.id
              (fun f => { f with documentCount := f.documentCount + 1 }) (fun x _ => rfl)]
            exact hfnd
          · rw [hdockey doc _ (hd5id _)]
            exact hdnd
          · exact hdocbound _ (hd5id _)
      | some of =>
        cases hgn : getFolder db nfid with
        | none =>
          simp only [updateDocument, hgd, hupdf, horel, hgn, Option.getD, setFolderFields]
          refine ⟨?_, ?_, ?_⟩
          · rw [map_key_of_update DmsFolder.id of.id
              (fun f => { f with documentCount := decCount f.documentCount }) (fun x _ => rfl)]
            exact hfnd
          · rw [hdockey doc _ (hd5id _)]
            exact hdnd
          · exact hdocbound _ (hd5id _)
        | some nf =>
          simp only [updateDocument, hgd, hupdf, horel, hgn, Option.getD, setFolderFields]
          refine ⟨?_, ?_, ?_⟩
          · rw [map_key_of_update DmsFolder.id nf.id
              (fun f => { f with documentCount := f.documentCount + 1 }) (fun x _ => rfl),
              map_key_of_update DmsFolder.id of.id
              (fun f => { f with documentCount := decCount f.documentCount }) (fun x _ => rfl)]
            exact hfnd
          · rw [hdockey doc _ (hd5id _)]
            exact hdnd
          · exact hdocbound _ (hd5id _)

/-- Counterexample to C6 as stated ("for every folder"): `c6BadDb` is
well-keyed and satisfies the unrestricted counter invariant for every
folder row, soft-deleted ones included; after the single `update_document`
that moves the live document into the soft-deleted folder G, the invariant
is false — G holds one non-deleted document (`docsInFolder = 1`) while
every stored counter is 0, because `get_folder`'s soft-delete filter skips
the increment while `document.folder_id` is repointed anyway. -/
theorem c6_counterexample :
    WfDb c6BadDb ∧ countsOkAll c6BadDb
    ∧ ¬ countsOkAll (applyDocOps (fun _ _ => "documents/p") c6BadDb c6BadOps)
    ∧ docsInFolder (applyDocOps (fun _ _ => "documents/p") c6BadDb c6BadOps) 1 = 1
    ∧ (applyDocOps (fun _ _ => "documents/p") c6BadDb c6BadOps).folders.map
        (fun f => f.documentCount) = [0, 0] := by
  unfold WfDb countsOkAll
  decide

/-- C6 as amended: starting from any well-keyed store in which every
non-deleted folder's `document_count` equals its number of non-deleted
direct documents and no counter is negative, after every sequence of
`create_document`, `update_document` and `delete_document` operations each
non-deleted folder's `document_count` still equals the number of
non-deleted documents whose `folder_id` is that folder, and no counter —
soft-deleted folders included — ever goes below 0 (the decrement is
floored at 0).  For soft-deleted folders the equality itself can fail, as
`c6_counterexample` shows. -/
theorem c6_document_count_invariant (sp : Nat → String → String) (db : Db) (ops : List DocOp)
    (hwf : WfDb db) (hok : countsOk db) (hnn : countsNonneg db) :
    countsOk (applyDocOps sp db ops) ∧ countsNonneg (applyDocOps sp db ops) := by
  suffices h : ∀ db0 : Db, WfDb db0 → countsOk db0 → countsNonneg db0 →
      WfDb (applyDocOps sp db0 ops) ∧ countsOk (applyDocOps sp db0 ops)
        ∧ countsNonneg (applyDocOps sp db0 ops) from
    ⟨(h db hwf hok hnn).2.1, (h db hwf hok hnn).2.2⟩
  induction ops with
  | nil => exact fun db0 h1 h2 h3 => ⟨h1, h2, h3⟩
  | cons op t ih =>
    intro db0 h1 h2 h3
    have hstep : applyDocOps sp db0 (op :: t) = applyDocOps sp (applyDocOp sp db0 op) t := rfl
    rw [hstep]
    apply ih
    · cases op with
      | create n ofn mt sz fid tg st => exact wf_createDocument sp db0 n ofn mt sz fid tg st h1
      | update did u => exact wf_updateDocument db0 did u h1
      | delete did => exact wf_deleteDocument db0 did h1
    · cases op with
      | create n ofn mt sz fid tg st =>
        exact countsOk_createDocument sp db0 n ofn mt sz fid tg st h2
      | update did u => exact countsOk_updateDocument db0 did u h2 h1.2.1
      | delete did => exact countsOk_deleteDocument db0 did h2 h1.2.1
    · cases op with
      | create n ofn mt sz fid tg st =>
        exact countsNonneg_createDocument sp db0 n ofn mt sz fid tg st h3
      | update did u => exact countsNonneg_updateDocument db0 did u h3
      | delete did => exact countsNonneg_deleteDocument db0 did h3

/-- Witness for C6 at a concrete store and operation sequence. -/
theorem c6_document_count_invariant_witness :
    countsOk (applyDocOps (fun _ _ => "documents/p") c6Db c6Ops)
    ∧ countsNonneg (applyDocOps (fun _ _ => "documents/p") c6Db c6Ops) :=
  c6_document_count_invariant (fun _ _ => "documents/p") c6Db c6Ops
    (by refine ⟨by decide, by decide, ?_⟩; intro d hd; cases hd)
    (by intro f hf hdel; fin_cases hf; decide)
    (by intro f hf; fin_cases hf; decide)

end DmsIQ
